import Mathlib

/-!
The query translation adapter of kairosdb-datasource.

A shallow embedding of `pkg/datasource/datasource.go` and theorems about it.

Conventions of the embedding

* A Go slice is a `Slice`: the nil slice and a non-nil slice are told apart,
  since the code assigns slices to fields whose nil-ness is observable.
* A Go pointer that the code may find nil is an `Option`: the queries and group-bys
  handed to the converters, the time range and the data-source descriptor of the
  request, the result sets the remote client returns.  The incoming request is the
  message the transport decoded: the request and its queries are present.
* A Go call either returns or panics: `Go α`.  A function of Go type
  `(T, error)` returns a pair `T × Option GoError`, the second component being
  `none` for a nil error.
* The injected collaborators (converters, remote client, `json.Unmarshal`) are
  functions of their arguments.  Calls to the remote client and to the logger
  are recorded in a trace of `Event`s.
* Types declared outside `datasource.go` carry the fields this file reads or writes.
-/

namespace KairosDB

/-! ## Go runtime -/

/-- Go slice of `α`: `nil` is the nil slice, `of xs` a non-nil slice holding `xs`. -/
inductive Slice (α : Type) where
  | nil : Slice α
  | of : List α → Slice α
  deriving DecidableEq, Repr

namespace Slice

/-- Elements of a slice, as ranged over by `for _, x := range s`. -/
def elems {α : Type} : Slice α → List α
  | nil => []
  | of xs => xs

/-- Go `len(s)`. -/
def len {α : Type} (s : Slice α) : Nat := s.elems.length

/-- Go `append(s, x)`: the result is never nil. -/
def append {α : Type} (s : Slice α) (x : α) : Slice α := of (s.elems ++ [x])

end Slice

/-- Run-time panics the code can raise. -/
inductive RuntimePanic where
  | nilDereference : RuntimePanic
  | indexOutOfRange (index length : Nat) : RuntimePanic
  | raised (msg : String) : RuntimePanic
  deriving DecidableEq, Repr

/-- Outcome of a Go call: it returns a value or panics. -/
inductive Go (α : Type) where
  | returns : α → Go α
  | panics : RuntimePanic → Go α
  deriving DecidableEq, Repr

/-- Status codes of `google.golang.org/grpc/codes` (the ones named here). -/
inductive Code where
  | OK | Canceled | Unknown | InvalidArgument | DeadlineExceeded | NotFound | Internal | Unavailable
  deriving DecidableEq, Repr

/-- Go `c.String()`. -/
def Code.String : Code → String
  | OK => "OK"
  | Canceled => "Canceled"
  | Unknown => "Unknown"
  | InvalidArgument => "InvalidArgument"
  | DeadlineExceeded => "DeadlineExceeded"
  | NotFound => "NotFound"
  | Internal => "Internal"
  | Unavailable => "Unavailable"

/-- Go `error` value: one made by `status.Errorf(code, ...)`, or any other error. -/
inductive GoError where
  | status (code : Code) (msg : String) : GoError
  | other (msg : String) : GoError
  deriving DecidableEq, Repr

namespace GoError

/-- Text of `err.Error()`, which is what `%v` prints. -/
def Error : GoError → String
  | status c m => "rpc error: code = " ++ c.String ++ " desc = " ++ m
  | other m => m

/-- Code of an error as `status.Code(err)` reports it; `Unknown` for a non-status error. -/
def code : GoError → Code
  | status c _ => c
  | other _ => Code.Unknown

end GoError

/-- Go `status.Errorf(c, ...)` with the formatted message `msg`. -/
def status.Errorf (c : Code) (msg : String) : GoError := GoError.status c msg

/-- Go `float64`, modelled by the rationals: the finite values, which are the ones a
JSON number decodes to (no NaN, no infinities, no rounding). -/
abbrev Float64 := ℚ

/-- Go `math.MinInt64`. -/
def math.MinInt64 : Int := -9223372036854775808

/-- Go `math.MaxInt64`. -/
def math.MaxInt64 : Int := 9223372036854775807

/-- Go conversion `int64(x)` of a `float64`: the fraction is discarded (truncation
toward zero) when the truncated value is an int64.  When it is not, the Go specification
leaves the 64-bit result to the implementation; the model takes the value the amd64
conversion yields, `math.MinInt64`. -/
def int64 (x : Float64) : Int :=
  let truncated := Int.tdiv x.num x.den
  if math.MinInt64 ≤ truncated ∧ truncated ≤ math.MaxInt64 then truncated else math.MinInt64

/-- Go `context.Context`, handed through to the remote client untouched. -/
structure Context where
  id : Nat
  deriving DecidableEq, Repr

/-! ## Data model -/

/-- Modelled from the spec: the `GroupBy` struct of this package is declared outside
`datasource.go`; it carries the ordered tag keys to group by (`groupBy.Tags`). -/
structure GroupBy where
  Tags : Slice String
  deriving DecidableEq, Repr

/-- Modelled from the spec: optional sampling of an aggregator, an interval and its unit. -/
structure Sampling where
  Value : Int
  Unit : String
  deriving DecidableEq, Repr

/-- Modelled from the spec: the `Aggregator` struct of this package is declared outside
`datasource.go`; it names the aggregation function and may carry a sampling. -/
structure Aggregator where
  Name : String
  Sampling : Option Sampling
  deriving DecidableEq, Repr

/-- Tag filter of a query: tag key to allowed values (Go `map[string][]string`). -/
abbrev TagFilter := List (String × List String)

/-- Modelled from the spec: the `MetricQuery` struct of this package is declared outside
`datasource.go`; the fields are the ones `Convert` reads. -/
structure MetricQuery where
  Name : String
  Tags : TagFilter
  Aggregators : Slice Aggregator
  GroupBy : Option GroupBy
  deriving DecidableEq, Repr

/-- Modelled from the spec: the `MetricRequest` struct of this package is declared outside
`datasource.go`; the per-panel model, of which the `query` object is read. -/
structure MetricRequest where
  Query : Option MetricQuery
  deriving DecidableEq, Repr

/-- Modelled from the spec: `remote.Grouper`, built here with the fields `Name` and `Tags`. -/
structure remote.Grouper where
  Name : String
  Tags : Slice String
  deriving DecidableEq, Repr

/-- Modelled from the spec: the remote aggregator an `AggregatorConverter` produces. -/
structure remote.Aggregator where
  Name : String
  Sampling : Option Sampling
  deriving DecidableEq, Repr

/-- Modelled from the spec: `remote.MetricQuery`, with the four fields `Convert` sets. -/
structure remote.MetricQuery where
  Name : String
  Tags : TagFilter
  Aggregators : Slice (Option remote.Aggregator)
  GroupBy : Slice (Option remote.Grouper)
  deriving DecidableEq, Repr

/-- Modelled from the spec: `remote.MetricQueryRequest`, built at lines 34-38. -/
structure remote.MetricQueryRequest where
  StartAbsolute : Int
  EndAbsolute : Int
  Metrics : Slice (Option remote.MetricQuery)
  deriving DecidableEq, Repr

/-- Tag group of a series as the remote store reports it (Go `map[string]string`). -/
abbrev TagGroup := List (String × String)

/-- Modelled from the spec: one series of a remote result set.  `TaggedGroup` stands for
the group fields that the method `GetTaggedGroup` of package `remote` reads; a data point
is a Go `[]float64`. -/
structure remote.MetricQueryResult where
  Name : String
  TaggedGroup : TagGroup
  Values : Slice (List Float64)
  deriving DecidableEq, Repr

/-- Modelled from the spec: method `GetTaggedGroup` of `remote.MetricQueryResult`, declared
in package `remote`: the tag group the remote store reports for the series. -/
def remote.MetricQueryResult.GetTaggedGroup (result : remote.MetricQueryResult) : TagGroup :=
  result.TaggedGroup

/-- Modelled from the spec: `remote.MetricQueryResults`, the result set of one query. -/
structure remote.MetricQueryResults where
  Results : Slice remote.MetricQueryResult
  deriving DecidableEq, Repr

/-- Point of the plugin model: `datasource.Point`. -/
structure datasource.Point where
  Timestamp : Int
  Value : Float64
  deriving DecidableEq, Repr

/-- Series of the plugin model: `datasource.TimeSeries`. -/
structure datasource.TimeSeries where
  Name : String
  Tags : TagGroup
  Points : Slice datasource.Point
  deriving DecidableEq, Repr

/-- Result of one query in the plugin model: `datasource.QueryResult` (the fields set here). -/
structure datasource.QueryResult where
  RefId : String
  Series : Slice datasource.TimeSeries
  deriving DecidableEq, Repr

/-- Batch response of the plugin model: `datasource.DatasourceResponse`. -/
structure datasource.DatasourceResponse where
  Results : Slice datasource.QueryResult
  deriving DecidableEq, Repr

/-- Time range of a request: `datasource.TimeRange` (the fields read here). -/
structure datasource.TimeRange where
  FromEpochMs : Int
  ToEpochMs : Int
  deriving DecidableEq, Repr

/-- Data-source descriptor: `datasource.DatasourceInfo`, handed through untouched. -/
structure datasource.DatasourceInfo where
  Id : Int
  Name : String
  Url : String
  deriving DecidableEq, Repr

/-- One query of a batch: `datasource.Query` (the fields read here). -/
structure datasource.Query where
  RefId : String
  ModelJson : String
  deriving DecidableEq, Repr

/-- Batch request: `datasource.DatasourceRequest`.  `TimeRange` and `Datasource` are
pointers and may be nil.  The request is the decoded message the transport delivers: the
request and each of its queries are present. -/
structure datasource.DatasourceRequest where
  TimeRange : Option datasource.TimeRange
  Datasource : Option datasource.DatasourceInfo
  Queries : Slice datasource.Query
  deriving DecidableEq, Repr

/-! ## Collaborators -/

/-- Interface `AggregatorConverter`, called as `Convert(aggregator)` at line 111. -/
abbrev AggregatorConverter := Aggregator → Go (Option remote.Aggregator × Option GoError)

/-- Interface `GroupByConverter`: `Convert(groupBy *GroupBy) ([]*remote.Grouper, error)`. -/
abbrev GroupByConverter := Option GroupBy → Go (Slice (Option remote.Grouper) × Option GoError)

/-- Interface `MetricQueryConverter`: `Convert(query *MetricQuery) (*remote.MetricQuery, error)`. -/
abbrev MetricQueryConverter := Option MetricQuery → Go (Option remote.MetricQuery × Option GoError)

/-- Interface `remote.KairosDBClient`, method `QueryMetrics(ctx, dsInfo, request)`. -/
abbrev remote.KairosDBClient :=
  Context → Option datasource.DatasourceInfo → remote.MetricQueryRequest →
    Go (Slice (Option remote.MetricQueryResults) × Option GoError)

/-- Call `json.Unmarshal([]byte(text), &MetricRequest{})`: the filled request, or the error. -/
abbrev json.Unmarshal := String → Except GoError MetricRequest

/-- Observable calls made while serving a request. -/
inductive Event where
  | LoggerDebug (msg : String) (args : List String) : Event
  | QueryMetrics (ctx : Context) (dsInfo : Option datasource.DatasourceInfo)
      (request : remote.MetricQueryRequest) : Event
  deriving DecidableEq, Repr

/-- Run of a function: the calls it made, in order, and how it ended. -/
structure Run (α : Type) where
  trace : List Event
  outcome : Go α

/-- Control after a loop: it ran to its end, or the function returned from inside it. -/
inductive Flow (σ ρ : Type) where
  | fallthrough : σ → Flow σ ρ
  | returned : ρ → Flow σ ρ

/-! ## GroupBy converter -/

/-- Method `GroupByConverterImpl.Convert` (lines 134-146).  Reading `groupBy.Tags`
through a nil pointer panics. -/
def GroupByConverterImpl.Convert : GroupByConverter
  | none => Go.panics RuntimePanic.nilDereference
  | some groupBy =>
    let tagGroups := groupBy.Tags
    let result : Slice (Option remote.Grouper) :=
      if tagGroups.len > 0 then Slice.of [some ⟨"tag", tagGroups⟩] else Slice.nil
    Go.returns (result, none)

/-! ## Metric query converter -/

/-- Struct `MetricQueryConverterImpl` with its two injected converters. -/
structure MetricQueryConverterImpl where
  AggregatorConverter : AggregatorConverter
  GroupByConverter : GroupByConverter

/-- Loop of lines 110-116 over the aggregators still to convert: the remote query with
the converted aggregators appended, or the error of the first failing conversion. -/
def MetricQueryConverterImpl.convertAggregators (c : MetricQueryConverterImpl) :
    List Aggregator → remote.MetricQuery → Go (Flow remote.MetricQuery GoError)
  | [], remoteQuery => Go.returns (Flow.fallthrough remoteQuery)
  | aggregator :: rest, remoteQuery =>
    match c.AggregatorConverter aggregator with
    | Go.panics p => Go.panics p
    | Go.returns (_, some err) => Go.returns (Flow.returned err)
    | Go.returns (result, none) =>
      convertAggregators c rest
        { remoteQuery with Aggregators := remoteQuery.Aggregators.append result }

/-- Method `MetricQueryConverterImpl.Convert` (lines 104-126). -/
def MetricQueryConverterImpl.Convert (c : MetricQueryConverterImpl) : MetricQueryConverter
  | none => Go.panics RuntimePanic.nilDereference
  | some query =>
    let remoteQuery : remote.MetricQuery :=
      { Name := query.Name, Tags := query.Tags, Aggregators := Slice.nil, GroupBy := Slice.nil }
    match c.convertAggregators query.Aggregators.elems remoteQuery with
    | Go.panics p => Go.panics p
    | Go.returns (Flow.returned err) => Go.returns (none, some err)
    | Go.returns (Flow.fallthrough remoteQuery) =>
      match query.GroupBy with
      | none => Go.returns (some remoteQuery, none)
      | some groupBy =>
        match c.GroupByConverter (some groupBy) with
        | Go.panics p => Go.panics p
        | Go.returns (_, some err) => Go.returns (none, some err)
        | Go.returns (result, none) =>
          Go.returns (some { remoteQuery with GroupBy := result }, none)

/-! ## Datasource -/

/-- Struct `Datasource`: the remote client and the metric query converter (the logger
shows as `Event.LoggerDebug` in the trace). -/
structure Datasource where
  KairosDBClient : remote.KairosDBClient
  MetricQueryConverter : MetricQueryConverter

/-- Loop of lines 79-86 over the data points still to read.  `dataPoint[1]` is read
first, then `dataPoint[0]`; an index beyond the length panics. -/
def Datasource.parsePoints :
    List (List Float64) → datasource.TimeSeries → Go datasource.TimeSeries
  | [], series => Go.returns series
  | dataPoint :: rest, series =>
    match dataPoint[1]? with
    | none => Go.panics (RuntimePanic.indexOutOfRange 1 dataPoint.length)
    | some value =>
      match dataPoint[0]? with
      | none => Go.panics (RuntimePanic.indexOutOfRange 0 dataPoint.length)
      | some timestamp =>
        parsePoints rest
          { series with Points := series.Points.append ⟨int64 timestamp, value⟩ }

/-- Loop of lines 73-88 over the series still to translate. -/
def Datasource.parseSeries :
    List remote.MetricQueryResult → Slice datasource.TimeSeries →
      Go (Slice datasource.TimeSeries)
  | [], seriesSet => Go.returns seriesSet
  | result :: rest, seriesSet =>
    let series : datasource.TimeSeries :=
      { Name := result.Name, Tags := result.GetTaggedGroup, Points := Slice.nil }
    match parsePoints result.Values.elems series with
    | Go.panics p => Go.panics p
    | Go.returns series => parseSeries rest (seriesSet.append series)

/-- Method `Datasource.ParseQueryResult` (lines 69-93).  Reading `results.Results`
through a nil pointer panics.  The receiver is not used. -/
def Datasource.ParseQueryResult (_ds : Datasource) :
    Option remote.MetricQueryResults → Go datasource.QueryResult
  | none => Go.panics RuntimePanic.nilDereference
  | some results =>
    match Datasource.parseSeries results.Results.elems (Slice.of []) with
    | Go.panics p => Go.panics p
    | Go.returns seriesSet => Go.returns { RefId := "", Series := seriesSet }

/-- Method `Datasource.createRemoteMetricQuery` (lines 58-67). -/
def Datasource.createRemoteMetricQuery (ds : Datasource) (unmarshal : json.Unmarshal)
    (dsQuery : datasource.Query) : Run (Option remote.MetricQuery × Option GoError) :=
  match unmarshal dsQuery.ModelJson with
  | Except.error err =>
    { trace := [Event.LoggerDebug "Failed to unmarshal JSON" ["value", dsQuery.ModelJson]],
      outcome := Go.returns (none, some (status.Errorf Code.InvalidArgument
        ("failed to unmarshal request model: " ++ err.Error))) }
  | Except.ok metricRequest =>
    { trace := [], outcome := ds.MetricQueryConverter metricRequest.Query }

/-- Local variables of `Query` that its first loop fills. -/
structure Datasource.QueryLocals where
  refIds : Slice String
  remoteQueries : Slice (Option remote.MetricQuery)
  deriving DecidableEq, Repr

/-- Loop of lines 25-32 over the queries still to convert. -/
def Datasource.convertQueries (ds : Datasource) (unmarshal : json.Unmarshal) :
    List datasource.Query → Datasource.QueryLocals →
      Run (Flow Datasource.QueryLocals (Option datasource.DatasourceResponse × Option GoError))
  | [], locals => { trace := [], outcome := Go.returns (Flow.fallthrough locals) }
  | dsQuery :: rest, locals =>
    let refIds := locals.refIds.append dsQuery.RefId
    let created := ds.createRemoteMetricQuery unmarshal dsQuery
    match created.outcome with
    | Go.panics p => { trace := created.trace, outcome := Go.panics p }
    | Go.returns (_, some err) =>
      { trace := created.trace, outcome := Go.returns (Flow.returned (none, some err)) }
    | Go.returns (remoteQuery, none) =>
      let next := convertQueries ds unmarshal rest
        { refIds := refIds, remoteQueries := locals.remoteQueries.append remoteQuery }
      { trace := created.trace ++ next.trace, outcome := next.outcome }

/-- Loop of lines 47-51 over the remote result sets still to parse, `i` being the index
of the first of them.  `refIds[i]` beyond the length panics. -/
def Datasource.attachRefIds (ds : Datasource) (refIds : Slice String) :
    List (Option remote.MetricQueryResults) → Nat → Slice datasource.QueryResult →
      Go (Slice datasource.QueryResult)
  | [], _, dsResults => Go.returns dsResults
  | result :: rest, i, dsResults =>
    match ds.ParseQueryResult result with
    | Go.panics p => Go.panics p
    | Go.returns qr =>
      match refIds.elems[i]? with
      | none => Go.panics (RuntimePanic.indexOutOfRange i refIds.len)
      | some refId =>
        attachRefIds ds refIds rest (i + 1) (dsResults.append { qr with RefId := refId })

/-- Method `Datasource.Query` (lines 21-56).  Reading `dsRequest.TimeRange.FromEpochMs`
through a nil time range (line 35) panics, after the loop and before the remote call. -/
def Datasource.Query (ds : Datasource) (unmarshal : json.Unmarshal) (ctx : Context)
    (dsRequest : datasource.DatasourceRequest) :
    Run (Option datasource.DatasourceResponse × Option GoError) :=
  let converted := ds.convertQueries unmarshal dsRequest.Queries.elems
    { refIds := Slice.of [], remoteQueries := Slice.nil }
  match converted.outcome with
  | Go.panics p => { trace := converted.trace, outcome := Go.panics p }
  | Go.returns (Flow.returned r) => { trace := converted.trace, outcome := Go.returns r }
  | Go.returns (Flow.fallthrough locals) =>
    match dsRequest.TimeRange with
    | none => { trace := converted.trace, outcome := Go.panics RuntimePanic.nilDereference }
    | some timeRange =>
      let remoteRequest : remote.MetricQueryRequest :=
        { StartAbsolute := timeRange.FromEpochMs,
          EndAbsolute := timeRange.ToEpochMs,
          Metrics := locals.remoteQueries }
      { trace := converted.trace ++ [Event.QueryMetrics ctx dsRequest.Datasource remoteRequest],
        outcome :=
          match ds.KairosDBClient ctx dsRequest.Datasource remoteRequest with
          | Go.panics p => Go.panics p
          | Go.returns (_, some err) => Go.returns (none, some err)
          | Go.returns (results, none) =>
            match ds.attachRefIds locals.refIds results.elems 0 (Slice.of []) with
            | Go.panics p => Go.panics p
            | Go.returns dsResults => Go.returns (some { Results := dsResults }, none) }

/-! ## Example inputs -/

/-- Aggregator converter that copies name and sampling, as the spec describes it. -/
def Example.copyAggregator : AggregatorConverter :=
  fun a => Go.returns (some { Name := a.Name, Sampling := a.Sampling }, none)

/-- GroupBy converter that succeeds with a non-nil, zero-length grouper list. -/
def Example.emptyListGroupBy : GroupByConverter :=
  fun _ => Go.returns (Slice.of [], none)

/-- Query with no aggregator and a GroupBy without tag keys. -/
def Example.untaggedQuery : MetricQuery :=
  { Name := "cpu.load", Tags := [("host", ["h1"])], Aggregators := Slice.nil,
    GroupBy := some { Tags := Slice.of [] } }

/-- Aggregator converter of the spec: an empty name is an invalid argument, any other
aggregator is copied. -/
def Example.namedAggregator : AggregatorConverter :=
  fun a =>
    if a.Name = "" then
      Go.returns (none, some (status.Errorf Code.InvalidArgument "aggregator name is required"))
    else Go.returns (some { Name := a.Name, Sampling := a.Sampling }, none)

/-- Metric query converter built from the spec's aggregator converter and
`GroupByConverterImpl`. -/
def Example.converter : MetricQueryConverterImpl :=
  { AggregatorConverter := Example.namedAggregator,
    GroupByConverter := GroupByConverterImpl.Convert }

/-- Query with the pipeline `sum`, `avg`, grouped by `host`. -/
def Example.pipelineQuery : MetricQuery :=
  { Name := "cpu.load", Tags := [("host", ["h1"])],
    Aggregators := Slice.of [{ Name := "sum", Sampling := none },
      { Name := "avg", Sampling := some { Value := 1, Unit := "minutes" } }],
    GroupBy := some { Tags := Slice.of ["host"] } }

/-- Query whose second aggregator has no name. -/
def Example.unnamedSecondQuery : MetricQuery :=
  { Name := "cpu.load", Tags := [],
    Aggregators := Slice.of [{ Name := "sum", Sampling := none },
      { Name := "", Sampling := none }, { Name := "avg", Sampling := none }],
    GroupBy := some { Tags := Slice.of ["host"] } }

/-- Stand-in for `json.Unmarshal`: the text `malformed` does not parse; any other text
is the model of a query on the metric of that name, without aggregators or grouping. -/
def Example.unmarshal : json.Unmarshal :=
  fun text =>
    if text = "malformed" then Except.error (GoError.other "unexpected end of JSON input")
    else Except.ok
      { Query := some { Name := text, Tags := [], Aggregators := Slice.nil, GroupBy := none } }

/-- Remote result set with the one series `first`. -/
def Example.firstResults : remote.MetricQueryResults :=
  { Results := Slice.of
      [{ Name := "first", TaggedGroup := [("host", "h1")],
         Values := Slice.of [[1000, 5], [2000, 7]] }] }

/-- Remote result set with the one series `second`. -/
def Example.secondResults : remote.MetricQueryResults :=
  { Results := Slice.of
      [{ Name := "second", TaggedGroup := [("host", "h2")], Values := Slice.of [[1000, 9]] }] }

/-- Remote result set whose only data point carries a single number. -/
def Example.shortPointResults : remote.MetricQueryResults :=
  { Results := Slice.of [{ Name := "cpu.load", TaggedGroup := [], Values := Slice.of [[1000]] }] }

/-- Datasource whose remote client answers every call with the two result sets
`first` and `second`, in this order. -/
def Example.datasource : Datasource :=
  { KairosDBClient := fun _ _ _ =>
      Go.returns (Slice.of [some Example.firstResults, some Example.secondResults], none),
    MetricQueryConverter := Example.converter.Convert }

/-- Datasource whose remote client answers every call with one result set, in which a
data point carries a single number. -/
def Example.shortPointDatasource : Datasource :=
  { KairosDBClient := fun _ _ _ => Go.returns (Slice.of [some Example.shortPointResults], none),
    MetricQueryConverter := Example.converter.Convert }

/-- Batch of two queries with the same content, under the reference ids `A` and `B`. -/
def Example.twoQueries : datasource.DatasourceRequest :=
  { TimeRange := some { FromEpochMs := 1000, ToEpochMs := 2000 },
    Datasource := some { Id := 1, Name := "kairosdb", Url := "http://localhost:8080" },
    Queries := Slice.of [{ RefId := "A", ModelJson := "cpu.load" },
      { RefId := "B", ModelJson := "cpu.load" }] }

/-- Response expected for `twoQueries` from `datasource`: the series `first` under `A`,
the series `second` under `B`. -/
def Example.twoQueriesResponse : datasource.DatasourceResponse :=
  { Results := Slice.of
      [{ RefId := "A",
         Series := Slice.of
           [{ Name := "first", Tags := [("host", "h1")],
              Points := Slice.of [{ Timestamp := 1000, Value := 5 },
                { Timestamp := 2000, Value := 7 }] }] },
       { RefId := "B",
         Series := Slice.of
           [{ Name := "second", Tags := [("host", "h2")],
              Points := Slice.of [{ Timestamp := 1000, Value := 9 }] }] }] }

/-- Batch of one query. -/
def Example.oneQuery : datasource.DatasourceRequest :=
  { TimeRange := some { FromEpochMs := 1000, ToEpochMs := 2000 },
    Datasource := none,
    Queries := Slice.of [{ RefId := "A", ModelJson := "cpu.load" }] }

/-- Batch of three queries, the payload of the second being malformed. -/
def Example.threeQueries : datasource.DatasourceRequest :=
  { TimeRange := some { FromEpochMs := 1000, ToEpochMs := 2000 },
    Datasource := none,
    Queries := Slice.of [{ RefId := "A", ModelJson := "cpu.load" },
      { RefId := "B", ModelJson := "malformed" }, { RefId := "C", ModelJson := "mem.free" }] }

/-- Query of the spec's scenario: `cpu.load` filtered on `host`, aggregated by `avg`,
grouped by `host`. -/
def Example.cpuLoadQuery : MetricQuery :=
  { Name := "cpu.load", Tags := [("host", ["h1"])],
    Aggregators := Slice.of [{ Name := "avg", Sampling := none }],
    GroupBy := some { Tags := Slice.of ["host"] } }

/-- Remote query expected for `cpuLoadQuery`. -/
def Example.cpuLoadRemoteQuery : remote.MetricQuery :=
  { Name := "cpu.load", Tags := [("host", ["h1"])],
    Aggregators := Slice.of [some { Name := "avg", Sampling := none }],
    GroupBy := Slice.of [some { Name := "tag", Tags := Slice.of ["host"] }] }

/-- GroupBy converter that fails on every input. -/
def Example.failingGroupBy : GroupByConverter :=
  fun _ => Go.returns (Slice.nil, some (GoError.other "grouping is not supported"))

/-- Query with an empty name and no GroupBy. -/
def Example.namelessQuery : MetricQuery :=
  { Name := "", Tags := [], Aggregators := Slice.of [{ Name := "sum", Sampling := none }],
    GroupBy := none }

/-- Query with a GroupBy on `host` and no aggregator. -/
def Example.groupedQuery : MetricQuery :=
  { Name := "cpu.load", Tags := [], Aggregators := Slice.nil,
    GroupBy := some { Tags := Slice.of ["host"] } }

/-- Datasource whose metric query converter rejects the metric `forbidden` and converts
any other query with `Example.converter`. -/
def Example.rejectingDatasource : Datasource :=
  { KairosDBClient := fun _ _ _ =>
      Go.returns (Slice.of [some Example.firstResults, some Example.secondResults], none),
    MetricQueryConverter := fun query =>
      match query with
      | none => Go.panics RuntimePanic.nilDereference
      | some q =>
        if q.Name = "forbidden" then Go.returns (none, some (GoError.other "metric is not allowed"))
        else Example.converter.Convert (some q) }

/-- Datasource whose remote client fails on every call. -/
def Example.unavailableDatasource : Datasource :=
  { KairosDBClient := fun _ _ _ => Go.returns (Slice.nil, some (GoError.other "connection refused")),
    MetricQueryConverter := Example.converter.Convert }

/-- Batch of three queries: the second is rejected by the converter, the payload of the
third is malformed. -/
def Example.rejectedThenMalformed : datasource.DatasourceRequest :=
  { TimeRange := some { FromEpochMs := 1000, ToEpochMs := 2000 },
    Datasource := none,
    Queries := Slice.of [{ RefId := "A", ModelJson := "cpu.load" },
      { RefId := "B", ModelJson := "forbidden" }, { RefId := "C", ModelJson := "malformed" }] }

/-- Batch of three queries that all deserialize and convert. -/
def Example.threeGoodQueries : datasource.DatasourceRequest :=
  { TimeRange := some { FromEpochMs := 1000, ToEpochMs := 2000 },
    Datasource := none,
    Queries := Slice.of [{ RefId := "A", ModelJson := "cpu.load" },
      { RefId := "B", ModelJson := "mem.free" }, { RefId := "C", ModelJson := "disk.used" }] }

/-- Remote result set with fractional and negative timestamps and a fractional value. -/
def Example.fractionalResults : remote.MetricQueryResults :=
  { Results := Slice.of
      [{ Name := "cpu.load", TaggedGroup := [],
         Values := Slice.of [[15009 / 10, 3 / 2], [-15009 / 10, 2], [1500, 7]] }] }

/-- Remote result set `firstResults` with further numbers in its data points. -/
def Example.longPointResults : remote.MetricQueryResults :=
  { Results := Slice.of
      [{ Name := "first", TaggedGroup := [("host", "h1")],
         Values := Slice.of [[1000, 5, 99], [2000, 7, 98, 97]] }] }

/-- Batch of two queries that deserialize and convert, without a time range. -/
def Example.noTimeRange : datasource.DatasourceRequest :=
  { TimeRange := none,
    Datasource := some { Id := 1, Name := "kairosdb", Url := "http://localhost:8080" },
    Queries := Slice.of [{ RefId := "A", ModelJson := "cpu.load" },
      { RefId := "B", ModelJson := "cpu.load" }] }

/-- Batch of three queries that deserialize and convert, without a time range. -/
def Example.threeQueriesNoTimeRange : datasource.DatasourceRequest :=
  { TimeRange := none,
    Datasource := none,
    Queries := Slice.of [{ RefId := "A", ModelJson := "cpu.load" },
      { RefId := "B", ModelJson := "mem.free" }, { RefId := "C", ModelJson := "disk.used" }] }

/-! ## Slices -/

theorem Slice.elems_append {α : Type} (s : Slice α) (x : α) :
    (s.append x).elems = s.elems ++ [x] := rfl

theorem Slice.elems_foldl_append {α : Type} (xs : List α) (s : Slice α) :
    (xs.foldl Slice.append s).elems = s.elems ++ xs := by
  induction xs generalizing s with
  | nil => simp
  | cons x xs ih => simp [ih, Slice.elems_append]

/-! ## Metric query converter: the aggregator loop -/

/-- Aggregators that all convert: the loop runs to its end, and the remote query it
leaves has the conversion results appended, one per aggregator and in their order. -/
theorem convertAggregators_all_ok (c : MetricQueryConverterImpl) (aggregators : List Aggregator)
    (remoteQuery : remote.MetricQuery)
    (h : ∀ a ∈ aggregators, ∃ r, c.AggregatorConverter a = Go.returns (r, none)) :
    ∃ rs, List.Forall₂ (fun a r => c.AggregatorConverter a = Go.returns (r, none)) aggregators rs ∧
      c.convertAggregators aggregators remoteQuery
        = Go.returns (Flow.fallthrough
            { remoteQuery with Aggregators := rs.foldl Slice.append remoteQuery.Aggregators }) := by
  induction aggregators generalizing remoteQuery with
  | nil => exact ⟨[], List.Forall₂.nil, rfl⟩
  | cons a rest ih =>
    obtain ⟨r, hr⟩ := h a (List.mem_cons_self a rest)
    obtain ⟨rs, hrs, hrun⟩ :=
      ih { remoteQuery with Aggregators := remoteQuery.Aggregators.append r }
        (fun x hx => h x (List.mem_cons_of_mem a hx))
    refine ⟨r :: rs, List.Forall₂.cons hr hrs, ?_⟩
    simp only [MetricQueryConverterImpl.convertAggregators, hr, hrun, List.foldl_cons]

/-- First failing aggregator: the loop returns its error, whatever the remote query
held so far and whatever aggregators follow. -/
theorem convertAggregators_first_error (c : MetricQueryConverterImpl)
    (before after : List Aggregator) (a : Aggregator) (v : Option remote.Aggregator)
    (err : GoError) (remoteQuery : remote.MetricQuery)
    (hbefore : ∀ x ∈ before, ∃ r, c.AggregatorConverter x = Go.returns (r, none))
    (ha : c.AggregatorConverter a = Go.returns (v, some err)) :
    c.convertAggregators (before ++ a :: after) remoteQuery = Go.returns (Flow.returned err) := by
  induction before generalizing remoteQuery with
  | nil => simp only [List.nil_append, MetricQueryConverterImpl.convertAggregators, ha]
  | cons x rest ih =>
    obtain ⟨r, hr⟩ := hbefore x (List.mem_cons_self x rest)
    simp only [List.cons_append, MetricQueryConverterImpl.convertAggregators, hr]
    exact ih _ (fun y hy => hbefore y (List.mem_cons_of_mem x hy))

/-- Element `i` of two lists related pointwise. -/
theorem forall₂_getElem? {α β : Type} {R : α → β → Prop} {xs : List α} {ys : List β}
    (h : List.Forall₂ R xs ys) (i : Nat) (hi : i < xs.length) :
    ∃ x y, xs[i]? = some x ∧ ys[i]? = some y ∧ R x y := by
  induction h generalizing i with
  | nil => simp at hi
  | cons hxy _ ih =>
    cases i with
    | zero => exact ⟨_, _, by simp, by simp, hxy⟩
    | succ j =>
      obtain ⟨x, y, hx, hy, hr⟩ := ih j (by simpa using hi)
      exact ⟨x, y, by simpa using hx, by simpa using hy, hr⟩

/-- The aggregator loop touches the aggregator list only: name, tags and group-by of the
remote query are as they were. -/
theorem convertAggregators_frame (c : MetricQueryConverterImpl) (aggregators : List Aggregator)
    (remoteQuery out : remote.MetricQuery)
    (h : c.convertAggregators aggregators remoteQuery = Go.returns (Flow.fallthrough out)) :
    out.Name = remoteQuery.Name ∧ out.Tags = remoteQuery.Tags ∧
      out.GroupBy = remoteQuery.GroupBy := by
  induction aggregators generalizing remoteQuery out with
  | nil =>
    simp only [MetricQueryConverterImpl.convertAggregators, Go.returns.injEq,
      Flow.fallthrough.injEq] at h
    subst h
    exact ⟨rfl, rfl, rfl⟩
  | cons a rest ih =>
    simp only [MetricQueryConverterImpl.convertAggregators] at h
    split at h
    · exact absurd h (by simp)
    · exact absurd h (by simp)
    · have hrest := ih _ _ h
      exact hrest

/-! ## GroupBy converter: theorems -/

/-- C3: for every non-nil GroupBy with at least one tag key, `GroupByConverterImpl.Convert`
returns no error and a list of exactly one grouper, named "tag", whose tags are the
input tag keys, all of them and in their order. -/
theorem GroupByConverterImpl_Convert_tagged (groupBy : GroupBy) (h : 0 < groupBy.Tags.len) :
    GroupByConverterImpl.Convert (some groupBy)
      = Go.returns (Slice.of [some { Name := "tag", Tags := groupBy.Tags }], none) := by
  simp [GroupByConverterImpl.Convert, h]

/-- Witness of C3: two tag keys, `host` then `dc`. -/
theorem GroupByConverterImpl_Convert_tagged_witness :
    0 < (GroupBy.mk (Slice.of ["host", "dc"])).Tags.len ∧
    GroupByConverterImpl.Convert (some (GroupBy.mk (Slice.of ["host", "dc"])))
      = Go.returns (Slice.of [some { Name := "tag", Tags := Slice.of ["host", "dc"] }], none) :=
  ⟨by decide, GroupByConverterImpl_Convert_tagged (GroupBy.mk (Slice.of ["host", "dc"])) (by decide)⟩

/-- C4: for every non-nil GroupBy with zero tag keys (a nil or an empty tag list),
`GroupByConverterImpl.Convert` returns no error and the nil grouper sequence, which has
no element: no grouper with zero tags is emitted. -/
theorem GroupByConverterImpl_Convert_untagged (groupBy : GroupBy) (h : groupBy.Tags.len = 0) :
    GroupByConverterImpl.Convert (some groupBy) = Go.returns (Slice.nil, none) := by
  simp [GroupByConverterImpl.Convert, h]

/-- Witness of C4: a non-nil, empty tag list. -/
theorem GroupByConverterImpl_Convert_untagged_witness :
    (GroupBy.mk (Slice.of [])).Tags.len = 0 ∧
    GroupByConverterImpl.Convert (some (GroupBy.mk (Slice.of []))) = Go.returns (Slice.nil, none) :=
  ⟨by decide, GroupByConverterImpl_Convert_untagged (GroupBy.mk (Slice.of [])) (by decide)⟩

/-- Counterexample to C9: given a nil GroupBy, `GroupByConverterImpl.Convert` panics on
the nil dereference; it does not return an empty grouper sequence and no error. -/
theorem GroupByConverterImpl_Convert_nil_counterexample :
    GroupByConverterImpl.Convert none = Go.panics RuntimePanic.nilDereference ∧
    ¬ ∃ result, GroupByConverterImpl.Convert none = Go.returns (result, none) ∧ result.len = 0 := by
  simp [GroupByConverterImpl.Convert]

/-- C9, amended: given a nil GroupBy, `GroupByConverterImpl.Convert` panics on the nil
dereference.  The nil case is kept away from it by `MetricQueryConverterImpl.Convert`:
for a query whose GroupBy is nil the outcome is the same under every GroupBy converter
(it is not consulted), and a remote query that is returned has its group-by field nil. -/
theorem GroupByConverterImpl_Convert_nil_guarded :
    GroupByConverterImpl.Convert none = Go.panics RuntimePanic.nilDereference ∧
    ∀ (c : MetricQueryConverterImpl) (query : MetricQuery), query.GroupBy = none →
      (∀ g : GroupByConverter,
        (MetricQueryConverterImpl.mk c.AggregatorConverter g).Convert (some query)
          = c.Convert (some query)) ∧
      ∀ remoteQuery err, c.Convert (some query) = Go.returns (some remoteQuery, err) →
        remoteQuery.GroupBy = Slice.nil := by
  refine ⟨rfl, fun c query hnil => ⟨fun g => ?_, fun remoteQuery err hret => ?_⟩⟩
  · have hloop : ∀ aggregators remoteQuery,
        (MetricQueryConverterImpl.mk c.AggregatorConverter g).convertAggregators
          aggregators remoteQuery = c.convertAggregators aggregators remoteQuery := by
      intro aggregators
      induction aggregators with
      | nil => intro remoteQuery; rfl
      | cons a rest ih =>
        intro remoteQuery
        simp only [MetricQueryConverterImpl.convertAggregators]
        split <;> simp [ih]
    simp only [MetricQueryConverterImpl.Convert, hloop, hnil]
  · simp only [MetricQueryConverterImpl.Convert, hnil] at hret
    split at hret
    · exact absurd hret (by simp)
    · exact absurd hret (by simp)
    · rename_i out hout
      simp only [Go.returns.injEq, Prod.mk.injEq, Option.some.injEq] at hret
      rw [← hret.1]
      exact (convertAggregators_frame c _ _ out hout).2.2

/-! ## Metric query converter: theorems -/

/-- C5: for every non-nil query whose aggregators all convert and whose group-by
conversion succeeds, `MetricQueryConverterImpl.Convert` returns a remote query and no
error; the remote query has as many aggregators as the query, and its aggregator `i` is
the result of the aggregator converter on the query's aggregator `i`. -/
theorem MetricQueryConverterImpl_Convert_aggregators (c : MetricQueryConverterImpl)
    (query : MetricQuery)
    (hagg : ∀ a ∈ query.Aggregators.elems, ∃ r, c.AggregatorConverter a = Go.returns (r, none))
    (hgroup : ∀ groupBy, query.GroupBy = some groupBy →
      ∃ result, c.GroupByConverter (some groupBy) = Go.returns (result, none)) :
    ∃ remoteQuery, c.Convert (some query) = Go.returns (some remoteQuery, none) ∧
      remoteQuery.Aggregators.len = query.Aggregators.len ∧
      ∀ i, i < query.Aggregators.len →
        ∃ a r, query.Aggregators.elems[i]? = some a ∧
          c.AggregatorConverter a = Go.returns (r, none) ∧
          remoteQuery.Aggregators.elems[i]? = some r := by
  obtain ⟨rs, hrs, hrun⟩ := convertAggregators_all_ok c query.Aggregators.elems
    { Name := query.Name, Tags := query.Tags, Aggregators := Slice.nil, GroupBy := Slice.nil } hagg
  have hshape : ∀ g : Slice (Option remote.Grouper),
      (({ Name := query.Name, Tags := query.Tags,
          Aggregators := rs.foldl Slice.append Slice.nil, GroupBy := g } :
          remote.MetricQuery).Aggregators.len = query.Aggregators.len) ∧
      ∀ i, i < query.Aggregators.len →
        ∃ a r, query.Aggregators.elems[i]? = some a ∧
          c.AggregatorConverter a = Go.returns (r, none) ∧
          ({ Name := query.Name, Tags := query.Tags,
             Aggregators := rs.foldl Slice.append Slice.nil, GroupBy := g } :
             remote.MetricQuery).Aggregators.elems[i]? = some r := by
    intro g
    have helems : (rs.foldl Slice.append (Slice.nil : Slice (Option remote.Aggregator))).elems
        = rs := by
      rw [Slice.elems_foldl_append]; rfl
    refine ⟨?_, fun i hi => ?_⟩
    · simp only [Slice.len, helems]
      exact hrs.length_eq.symm
    · obtain ⟨a, r, ha, hr, hconv⟩ := forall₂_getElem? hrs i hi
      exact ⟨a, r, ha, hconv, by simpa only [helems] using hr⟩
  cases hq : query.GroupBy with
  | none =>
    refine ⟨_, ?_, hshape Slice.nil⟩
    simp only [MetricQueryConverterImpl.Convert, hrun, hq]
  | some groupBy =>
    obtain ⟨result, hresult⟩ := hgroup groupBy hq
    refine ⟨_, ?_, hshape result⟩
    simp only [MetricQueryConverterImpl.Convert, hrun, hq, hresult]

/-- Witness of C5: the pipeline `sum`, `avg` with a group-by on `host`. -/
theorem MetricQueryConverterImpl_Convert_aggregators_witness :
    ∃ remoteQuery,
      Example.converter.Convert (some Example.pipelineQuery)
        = Go.returns (some remoteQuery, none) ∧
      remoteQuery.Aggregators.len = Example.pipelineQuery.Aggregators.len ∧
      ∀ i, i < Example.pipelineQuery.Aggregators.len →
        ∃ a r, Example.pipelineQuery.Aggregators.elems[i]? = some a ∧
          Example.converter.AggregatorConverter a = Go.returns (r, none) ∧
          remoteQuery.Aggregators.elems[i]? = some r :=
  MetricQueryConverterImpl_Convert_aggregators Example.converter Example.pipelineQuery
    (by
      intro a ha
      simp only [Example.pipelineQuery, Slice.elems, List.mem_cons, List.mem_singleton,
        List.not_mem_nil, or_false] at ha
      rcases ha with h | h <;> subst h <;> exact ⟨_, rfl⟩)
    (fun _ _ => ⟨_, rfl⟩)

/-- C6: for every non-nil query in which aggregator `a` is the first whose conversion
fails, with error `err`, `MetricQueryConverterImpl.Convert` returns `err` and no remote
query; and so does it for every other query with the same aggregators up to `a`, whatever
aggregators follow, whatever its GroupBy, name and tags, and whatever the GroupBy
converter. -/
theorem MetricQueryConverterImpl_Convert_fail_fast (c : MetricQueryConverterImpl)
    (query : MetricQuery) (before after : List Aggregator) (a : Aggregator)
    (v : Option remote.Aggregator) (err : GoError)
    (hsplit : query.Aggregators.elems = before ++ a :: after)
    (hbefore : ∀ x ∈ before, ∃ r, c.AggregatorConverter x = Go.returns (r, none))
    (ha : c.AggregatorConverter a = Go.returns (v, some err)) :
    c.Convert (some query) = Go.returns (none, some err) ∧
    ∀ (g : GroupByConverter) (other : MetricQuery) (after2 : List Aggregator),
      other.Aggregators.elems = before ++ a :: after2 →
      (MetricQueryConverterImpl.mk c.AggregatorConverter g).Convert (some other)
        = Go.returns (none, some err) := by
  refine ⟨?_, fun g other after2 hother => ?_⟩
  · simp only [MetricQueryConverterImpl.Convert, hsplit,
      convertAggregators_first_error c before after a v err _ hbefore ha]
  · simp only [MetricQueryConverterImpl.Convert, hother,
      convertAggregators_first_error (MetricQueryConverterImpl.mk c.AggregatorConverter g)
        before after2 a v err _ hbefore ha]

/-- Witness of C6: the second of three aggregators has no name. -/
theorem MetricQueryConverterImpl_Convert_fail_fast_witness :
    Example.converter.Convert (some Example.unnamedSecondQuery)
      = Go.returns (none,
          some (status.Errorf Code.InvalidArgument "aggregator name is required")) :=
  (MetricQueryConverterImpl_Convert_fail_fast Example.converter Example.unnamedSecondQuery
    [{ Name := "sum", Sampling := none }] [{ Name := "avg", Sampling := none }]
    { Name := "", Sampling := none } none
    (status.Errorf Code.InvalidArgument "aggregator name is required") rfl
    (by
      intro x hx
      rw [List.mem_singleton] at hx
      subst hx
      exact ⟨_, rfl⟩)
    rfl).1

/-- Counterexample to C10: a GroupBy converter that succeeds with a non-nil, zero-length
list makes `MetricQueryConverterImpl.Convert` return a remote query whose group-by field is
that non-nil empty list, not nil. -/
theorem MetricQueryConverterImpl_Convert_empty_list_counterexample :
    (MetricQueryConverterImpl.mk Example.copyAggregator Example.emptyListGroupBy).Convert
        (some Example.untaggedQuery)
      = Go.returns
          (some (remote.MetricQuery.mk "cpu.load" [("host", ["h1"])] Slice.nil (Slice.of [])),
            none) ∧
    Example.emptyListGroupBy Example.untaggedQuery.GroupBy = Go.returns (Slice.of [], none) ∧
    (Slice.of [] : Slice (Option remote.Grouper)).len = 0 ∧
    (Slice.of [] : Slice (Option remote.Grouper)) ≠ Slice.nil := by
  refine ⟨rfl, rfl, rfl, ?_⟩
  simp

/-- C10, amended: for every non-nil query with non-nil GroupBy whose aggregators all
convert, and every GroupBy converter that succeeds on that GroupBy with an empty result,
`MetricQueryConverterImpl.Convert` returns a remote query whose group-by field is the
converter's result as it is: nil exactly when the converter returned nil. -/
theorem MetricQueryConverterImpl_Convert_empty_groupBy (c : MetricQueryConverterImpl)
    (query : MetricQuery) (groupBy : GroupBy) (result : Slice (Option remote.Grouper))
    (hquery : query.GroupBy = some groupBy)
    (hagg : ∀ a ∈ query.Aggregators.elems, ∃ r, c.AggregatorConverter a = Go.returns (r, none))
    (hconv : c.GroupByConverter (some groupBy) = Go.returns (result, none))
    (hempty : result.len = 0) :
    ∃ remoteQuery, c.Convert (some query) = Go.returns (some remoteQuery, none) ∧
      remoteQuery.GroupBy = result ∧ remoteQuery.GroupBy.len = 0 ∧
      (remoteQuery.GroupBy = Slice.nil ↔ result = Slice.nil) := by
  obtain ⟨rs, _, hrun⟩ := convertAggregators_all_ok c query.Aggregators.elems
    { Name := query.Name, Tags := query.Tags, Aggregators := Slice.nil, GroupBy := Slice.nil } hagg
  refine ⟨remote.MetricQuery.mk query.Name query.Tags (rs.foldl Slice.append Slice.nil) result,
    ?_, rfl, hempty, Iff.rfl⟩
  simp only [MetricQueryConverterImpl.Convert, hrun, hquery, hconv]

/-- Witness of C10, amended: `GroupByConverterImpl` on a GroupBy without tag keys returns
nil, and the group-by field of the remote query is nil. -/
theorem MetricQueryConverterImpl_Convert_empty_groupBy_witness :
    ∃ remoteQuery,
      (MetricQueryConverterImpl.mk Example.copyAggregator GroupByConverterImpl.Convert).Convert
          (some Example.untaggedQuery) = Go.returns (some remoteQuery, none) ∧
      remoteQuery.GroupBy = Slice.nil ∧ remoteQuery.GroupBy.len = 0 ∧
      (remoteQuery.GroupBy = Slice.nil ↔
        (Slice.nil : Slice (Option remote.Grouper)) = Slice.nil) :=
  MetricQueryConverterImpl_Convert_empty_groupBy
    (MetricQueryConverterImpl.mk Example.copyAggregator GroupByConverterImpl.Convert)
    Example.untaggedQuery { Tags := Slice.of [] } Slice.nil rfl
    (fun _ _ => ⟨_, rfl⟩) rfl rfl

/-! ## Result parser -/

/-- Data points that all carry two numbers: the loop runs to its end and appends one
point per data point, in order, each made of elements 0 and 1 of its data point. -/
theorem parsePoints_all_ok (dataPoints : List (List Float64)) (series : datasource.TimeSeries)
    (h : ∀ dp ∈ dataPoints, 2 ≤ dp.length) :
    ∃ points,
      List.Forall₂ (fun dp point => ∃ t v, dp[0]? = some t ∧ dp[1]? = some v ∧
        point = datasource.Point.mk (int64 t) v) dataPoints points ∧
      Datasource.parsePoints dataPoints series
        = Go.returns { series with Points := points.foldl Slice.append series.Points } := by
  induction dataPoints generalizing series with
  | nil => exact ⟨[], List.Forall₂.nil, rfl⟩
  | cons dp rest ih =>
    have hlen := h dp (List.mem_cons_self dp rest)
    obtain ⟨t, tail, rfl⟩ : ∃ t tail, dp = t :: tail := by
      cases dp with
      | nil => simp at hlen
      | cons t tail => exact ⟨t, tail, rfl⟩
    obtain ⟨v, more, rfl⟩ : ∃ v more, tail = v :: more := by
      cases tail with
      | nil => simp at hlen
      | cons v more => exact ⟨v, more, rfl⟩
    obtain ⟨points, hpoints, hrun⟩ :=
      ih { series with Points := series.Points.append ⟨int64 t, v⟩ }
        (fun x hx => h x (List.mem_cons_of_mem _ hx))
    refine ⟨⟨int64 t, v⟩ :: points,
      List.Forall₂.cons ⟨t, v, by simp, by simp, rfl⟩ hpoints, ?_⟩
    simpa [Datasource.parsePoints] using hrun

/-- Series whose data points all carry two numbers: the loop runs to its end and appends
one output series per remote series, in order, with the name, the tag group and the
points of its remote series. -/
theorem parseSeries_all_ok (remoteSeries : List remote.MetricQueryResult)
    (seriesSet : Slice datasource.TimeSeries)
    (h : ∀ s ∈ remoteSeries, ∀ dp ∈ s.Values.elems, 2 ≤ dp.length) :
    ∃ out,
      List.Forall₂ (fun (s : remote.MetricQueryResult) (o : datasource.TimeSeries) =>
        o.Name = s.Name ∧ o.Tags = s.GetTaggedGroup ∧
        List.Forall₂ (fun dp point => ∃ t v, dp[0]? = some t ∧ dp[1]? = some v ∧
          point = datasource.Point.mk (int64 t) v) s.Values.elems o.Points.elems)
        remoteSeries out ∧
      Datasource.parseSeries remoteSeries seriesSet
        = Go.returns (out.foldl Slice.append seriesSet) := by
  induction remoteSeries generalizing seriesSet with
  | nil => exact ⟨[], List.Forall₂.nil, rfl⟩
  | cons s rest ih =>
    obtain ⟨points, hpoints, hrun⟩ := parsePoints_all_ok s.Values.elems
      { Name := s.Name, Tags := s.GetTaggedGroup, Points := Slice.nil }
      (h s (List.mem_cons_self s rest))
    obtain ⟨out, hout, hrest⟩ :=
      ih (seriesSet.append
          { Name := s.Name, Tags := s.GetTaggedGroup,
            Points := points.foldl Slice.append Slice.nil })
        (fun x hx => h x (List.mem_cons_of_mem _ hx))
    refine ⟨datasource.TimeSeries.mk s.Name s.GetTaggedGroup
        (points.foldl Slice.append Slice.nil) :: out,
      List.Forall₂.cons ⟨rfl, rfl, ?_⟩ hout, ?_⟩
    · show List.Forall₂ _ _ (points.foldl Slice.append Slice.nil).elems
      rw [Slice.elems_foldl_append]
      simpa [Slice.elems] using hpoints
    · simp only [Datasource.parseSeries, hrun, List.foldl_cons]
      exact hrest

/-- Counterexample to C2: on a remote result whose one series has one data point, and
that data point a single number, `ParseQueryResult` panics on the index: there is no
output with one series of one point. -/
theorem Datasource_ParseQueryResult_short_point_counterexample :
    Example.shortPointResults.Results.len = 1 ∧
    Example.datasource.ParseQueryResult (some Example.shortPointResults)
      = Go.panics (RuntimePanic.indexOutOfRange 1 1) ∧
    ¬ ∃ out, Example.datasource.ParseQueryResult (some Example.shortPointResults)
      = Go.returns out := by
  have h : Example.datasource.ParseQueryResult (some Example.shortPointResults)
      = Go.panics (RuntimePanic.indexOutOfRange 1 1) := rfl
  refine ⟨rfl, h, ?_⟩
  rw [h]
  simp

/-- C2, amended: for every non-nil remote result whose data points all carry at least two
numbers, `ParseQueryResult` returns a result with as many series as the remote result, in
the same order; output series `j` has the name and the tag group of remote series `j` and
as many points as it has data points, in the same order, point `k` having the timestamp
`int64` of element 0 and the value element 1 of data point `k`. -/
theorem Datasource_ParseQueryResult_shape (ds : Datasource) (results : remote.MetricQueryResults)
    (hshape : ∀ s ∈ results.Results.elems, ∀ dp ∈ s.Values.elems, 2 ≤ dp.length) :
    ∃ out, ds.ParseQueryResult (some results) = Go.returns { RefId := "", Series := Slice.of out } ∧
      out.length = results.Results.len ∧
      List.Forall₂ (fun (s : remote.MetricQueryResult) (o : datasource.TimeSeries) =>
        o.Name = s.Name ∧ o.Tags = s.GetTaggedGroup ∧ o.Points.len = s.Values.len ∧
        List.Forall₂ (fun dp point => ∃ t v, dp[0]? = some t ∧ dp[1]? = some v ∧
          point = datasource.Point.mk (int64 t) v) s.Values.elems o.Points.elems)
        results.Results.elems out := by
  obtain ⟨out, hout, hrun⟩ := parseSeries_all_ok results.Results.elems (Slice.of []) hshape
  refine ⟨out, ?_, hout.length_eq.symm, ?_⟩
  · simp only [Datasource.ParseQueryResult, hrun]
    congr 2
    cases out with
    | nil => rfl
    | cons o rest =>
      have helems := Slice.elems_foldl_append (o :: rest) (Slice.of [])
      cases hfold : List.foldl Slice.append (Slice.of []) (o :: rest) with
      | nil => rw [hfold] at helems; simp [Slice.elems] at helems
      | of xs => rw [hfold] at helems; simpa [Slice.elems] using helems
  · exact List.Forall₂.imp (fun _ _ h => ⟨h.1, h.2.1, h.2.2.length_eq.symm, h.2.2⟩) hout

/-- Witness of C2, amended: the remote result with the series `first` and its two
data points. -/
theorem Datasource_ParseQueryResult_shape_witness :
    ∃ out, Example.datasource.ParseQueryResult (some Example.firstResults)
        = Go.returns { RefId := "", Series := Slice.of out } ∧
      out.length = Example.firstResults.Results.len ∧
      List.Forall₂ (fun (s : remote.MetricQueryResult) (o : datasource.TimeSeries) =>
        o.Name = s.Name ∧ o.Tags = s.GetTaggedGroup ∧ o.Points.len = s.Values.len ∧
        List.Forall₂ (fun dp point => ∃ t v, dp[0]? = some t ∧ dp[1]? = some v ∧
          point = datasource.Point.mk (int64 t) v) s.Values.elems o.Points.elems)
        Example.firstResults.Results.elems out :=
  Datasource_ParseQueryResult_shape Example.datasource Example.firstResults (by
    intro s hs dp hdp
    simp only [Example.firstResults, Slice.elems, List.mem_singleton] at hs
    subst hs
    simp only [Slice.elems, List.mem_cons, List.mem_singleton, List.not_mem_nil, or_false] at hdp
    rcases hdp with h | h <;> subst h <;> decide)

/-! ## Query: the conversion loop -/

/-- Queries that all deserialize and convert: the loop makes no call, runs to its end, and
leaves the reference ids and the converted queries appended, one per query and in order. -/
theorem convertQueries_all_ok (ds : Datasource) (unmarshal : json.Unmarshal)
    (queries : List datasource.Query) (locals : Datasource.QueryLocals)
    (h : ∀ q ∈ queries, ∃ mr rq, unmarshal q.ModelJson = Except.ok mr ∧
      ds.MetricQueryConverter mr.Query = Go.returns (rq, none)) :
    ∃ rqs,
      List.Forall₂ (fun (q : datasource.Query) rq => ∃ mr, unmarshal q.ModelJson = Except.ok mr ∧
        ds.MetricQueryConverter mr.Query = Go.returns (rq, none)) queries rqs ∧
      ds.convertQueries unmarshal queries locals
        = { trace := [],
            outcome := Go.returns (Flow.fallthrough
              { refIds := (queries.map datasource.Query.RefId).foldl Slice.append locals.refIds,
                remoteQueries := rqs.foldl Slice.append locals.remoteQueries }) } := by
  induction queries generalizing locals with
  | nil => exact ⟨[], List.Forall₂.nil, rfl⟩
  | cons q rest ih =>
    obtain ⟨mr, rq, hmr, hrq⟩ := h q (List.mem_cons_self q rest)
    obtain ⟨rqs, hrqs, hrun⟩ :=
      ih { refIds := locals.refIds.append q.RefId,
           remoteQueries := locals.remoteQueries.append rq }
        (fun x hx => h x (List.mem_cons_of_mem q hx))
    refine ⟨rq :: rqs, List.Forall₂.cons ⟨mr, hmr, hrq⟩ hrqs, ?_⟩
    simp only [Datasource.convertQueries, Datasource.createRemoteMetricQuery, hmr, hrq, hrun,
      List.map_cons, List.foldl_cons, List.append_nil]

/-- First query whose payload does not deserialize, the queries before it deserializing
and converting: the loop logs the payload and returns the invalid-argument error. -/
theorem convertQueries_unmarshal_error (ds : Datasource) (unmarshal : json.Unmarshal)
    (before after : List datasource.Query) (q : datasource.Query) (e : GoError)
    (locals : Datasource.QueryLocals)
    (hbefore : ∀ x ∈ before, ∃ mr rq, unmarshal x.ModelJson = Except.ok mr ∧
      ds.MetricQueryConverter mr.Query = Go.returns (rq, none))
    (hq : unmarshal q.ModelJson = Except.error e) :
    ds.convertQueries unmarshal (before ++ q :: after) locals
      = { trace := [Event.LoggerDebug "Failed to unmarshal JSON" ["value", q.ModelJson]],
          outcome := Go.returns (Flow.returned (none,
            some (status.Errorf Code.InvalidArgument
              ("failed to unmarshal request model: " ++ e.Error)))) } := by
  induction before generalizing locals with
  | nil =>
    simp only [List.nil_append, Datasource.convertQueries, Datasource.createRemoteMetricQuery, hq]
  | cons x rest ih =>
    obtain ⟨mr, rq, hmr, hrq⟩ := hbefore x (List.mem_cons_self x rest)
    have hrest := ih (Datasource.QueryLocals.mk (locals.refIds.append x.RefId)
      (locals.remoteQueries.append rq)) (fun y hy => hbefore y (List.mem_cons_of_mem x hy))
    show ds.convertQueries unmarshal (x :: (rest ++ q :: after)) locals = _
    simp only [Datasource.convertQueries, Datasource.createRemoteMetricQuery, hmr, hrq, hrest,
      List.nil_append]

/-- A slice built by appending to the non-nil empty slice is the non-nil slice of the
appended elements. -/
theorem Slice.foldl_append_of_nil {α : Type} (xs : List α) :
    xs.foldl Slice.append (Slice.of []) = Slice.of xs := by
  have key : ∀ (ys zs : List α), ys.foldl Slice.append (Slice.of zs) = Slice.of (zs ++ ys) := by
    intro ys
    induction ys with
    | nil => intro zs; simp
    | cons y rest ih => intro zs; simp [Slice.append, Slice.elems, ih]
  simpa using key xs []

/-! ## Query: the reference id loop -/

/-- Result sets that all parse, with a reference id at hand for each of them: the loop
runs to its end and appends one result per result set, in order, each the parsed result
set under the reference id of its position. -/
theorem attachRefIds_all_ok (ds : Datasource) (refIds : Slice String)
    (results : List (Option remote.MetricQueryResults)) (seen ids : List String)
    (dsResults : Slice datasource.QueryResult)
    (hids : refIds.elems = seen ++ ids) (hlen : results.length ≤ ids.length)
    (hparse : ∀ r ∈ results, ∃ qr, ds.ParseQueryResult r = Go.returns qr) :
    ∃ out,
      List.Forall₂ (fun (p : Option remote.MetricQueryResults × String) o =>
        ∃ qr, ds.ParseQueryResult p.1 = Go.returns qr ∧ o = { qr with RefId := p.2 })
        (results.zip ids) out ∧
      ds.attachRefIds refIds results seen.length dsResults
        = Go.returns (out.foldl Slice.append dsResults) := by
  induction results generalizing seen ids dsResults with
  | nil => exact ⟨[], by simp, rfl⟩
  | cons r rest ih =>
    obtain ⟨qr, hqr⟩ := hparse r (List.mem_cons_self r rest)
    cases ids with
    | nil => simp at hlen
    | cons id ids =>
      have hid : refIds.elems[seen.length]? = some id := by
        rw [hids, List.getElem?_append_right (le_refl _)]
        simp
      obtain ⟨out, hout, hrun⟩ :=
        ih (seen ++ [id]) ids (dsResults.append { qr with RefId := id })
          (by simp [hids]) (by simpa using hlen)
          (fun x hx => hparse x (List.mem_cons_of_mem r hx))
      refine ⟨{ qr with RefId := id } :: out, ?_, ?_⟩
      · simpa using And.intro (show ∃ qr0, ds.ParseQueryResult r = Go.returns qr0 ∧
          ({ qr with RefId := id } : datasource.QueryResult) = { qr0 with RefId := id } from
            ⟨qr, hqr, rfl⟩) hout
      · simp only [Datasource.attachRefIds, hqr, hid, List.foldl_cons]
        simpa using hrun

/-! ## Query -/

/-- Queries that all deserialize and convert, and a time range that is present: `Query`
makes the one call to the remote client, with the time range of the request and the
converted queries, and ends as the answer of the remote client decides. -/
theorem Query_all_converted (ds : Datasource) (unmarshal : json.Unmarshal) (ctx : Context)
    (dsRequest : datasource.DatasourceRequest) (timeRange : datasource.TimeRange)
    (hconv : ∀ q ∈ dsRequest.Queries.elems, ∃ mr rq, unmarshal q.ModelJson = Except.ok mr ∧
      ds.MetricQueryConverter mr.Query = Go.returns (rq, none))
    (htime : dsRequest.TimeRange = some timeRange) :
    ∃ rqs,
      List.Forall₂ (fun (q : datasource.Query) rq => ∃ mr, unmarshal q.ModelJson = Except.ok mr ∧
        ds.MetricQueryConverter mr.Query = Go.returns (rq, none)) dsRequest.Queries.elems rqs ∧
      (ds.Query unmarshal ctx dsRequest).trace
        = [Event.QueryMetrics ctx dsRequest.Datasource
            { StartAbsolute := timeRange.FromEpochMs,
              EndAbsolute := timeRange.ToEpochMs,
              Metrics := rqs.foldl Slice.append Slice.nil }] ∧
      (∀ p, ds.KairosDBClient ctx dsRequest.Datasource
            { StartAbsolute := timeRange.FromEpochMs,
              EndAbsolute := timeRange.ToEpochMs,
              Metrics := rqs.foldl Slice.append Slice.nil } = Go.panics p →
        (ds.Query unmarshal ctx dsRequest).outcome = Go.panics p) ∧
      (∀ v err, ds.KairosDBClient ctx dsRequest.Datasource
            { StartAbsolute := timeRange.FromEpochMs,
              EndAbsolute := timeRange.ToEpochMs,
              Metrics := rqs.foldl Slice.append Slice.nil } = Go.returns (v, some err) →
        (ds.Query unmarshal ctx dsRequest).outcome = Go.returns (none, some err)) ∧
      (∀ results, ds.KairosDBClient ctx dsRequest.Datasource
            { StartAbsolute := timeRange.FromEpochMs,
              EndAbsolute := timeRange.ToEpochMs,
              Metrics := rqs.foldl Slice.append Slice.nil } = Go.returns (results, none) →
        (∀ p, ds.attachRefIds (Slice.of (dsRequest.Queries.elems.map datasource.Query.RefId))
            results.elems 0 (Slice.of []) = Go.panics p →
          (ds.Query unmarshal ctx dsRequest).outcome = Go.panics p) ∧
        (∀ dsResults,
          ds.attachRefIds (Slice.of (dsRequest.Queries.elems.map datasource.Query.RefId))
            results.elems 0 (Slice.of []) = Go.returns dsResults →
          (ds.Query unmarshal ctx dsRequest).outcome
            = Go.returns (some { Results := dsResults }, none))) := by
  obtain ⟨rqs, hrqs, hrun⟩ := convertQueries_all_ok ds unmarshal dsRequest.Queries.elems
    { refIds := Slice.of [], remoteQueries := Slice.nil } hconv
  rw [Slice.foldl_append_of_nil] at hrun
  refine ⟨rqs, hrqs, ?_, ?_, ?_, ?_⟩
  · simp only [Datasource.Query, hrun, htime, List.nil_append]
  · intro p hp
    simp only [Datasource.Query, hrun, htime, hp]
  · intro v err hv
    simp only [Datasource.Query, hrun, htime, hv]
  · intro results hresults
    refine ⟨fun p hp => ?_, fun dsResults hd => ?_⟩
    · simp only [Datasource.Query, hrun, htime, hresults, hp]
    · simp only [Datasource.Query, hrun, htime, hresults, hd]

/-- Queries that all deserialize and convert, and a nil time range: `Query` makes no call
and panics on the nil dereference. -/
theorem Query_nil_timeRange (ds : Datasource) (unmarshal : json.Unmarshal) (ctx : Context)
    (dsRequest : datasource.DatasourceRequest)
    (hconv : ∀ q ∈ dsRequest.Queries.elems, ∃ mr rq, unmarshal q.ModelJson = Except.ok mr ∧
      ds.MetricQueryConverter mr.Query = Go.returns (rq, none))
    (htime : dsRequest.TimeRange = none) :
    (ds.Query unmarshal ctx dsRequest).trace = [] ∧
    (ds.Query unmarshal ctx dsRequest).outcome = Go.panics RuntimePanic.nilDereference := by
  obtain ⟨rqs, _, hrun⟩ := convertQueries_all_ok ds unmarshal dsRequest.Queries.elems
    { refIds := Slice.of [], remoteQueries := Slice.nil } hconv
  constructor
  · simp only [Datasource.Query, hrun, htime]
  · simp only [Datasource.Query, hrun, htime]

/-- A remote call in the trace of `Query` tells that the time range is present. -/
theorem Query_call_timeRange (ds : Datasource) (unmarshal : json.Unmarshal) (ctx : Context)
    (dsRequest : datasource.DatasourceRequest)
    (hconv : ∀ q ∈ dsRequest.Queries.elems, ∃ mr rq, unmarshal q.ModelJson = Except.ok mr ∧
      ds.MetricQueryConverter mr.Query = Go.returns (rq, none))
    (c : Context) (info : Option datasource.DatasourceInfo) (request : remote.MetricQueryRequest)
    (hcall : Event.QueryMetrics c info request ∈ (ds.Query unmarshal ctx dsRequest).trace) :
    ∃ timeRange, dsRequest.TimeRange = some timeRange := by
  cases htime : dsRequest.TimeRange with
  | none =>
    rw [(Query_nil_timeRange ds unmarshal ctx dsRequest hconv htime).1] at hcall
    simp at hcall
  | some timeRange => exact ⟨timeRange, rfl⟩

/-- Counterexample to C1: one query that deserializes and converts, and a remote response
of exactly one result set, in which a data point carries a single number: `Query` panics
on the index while parsing the result set and returns no response.  And two queries that
deserialize and convert in a request without time range, with a remote client that
answers with two well-shaped result sets: `Query` panics on the nil time range and
returns no response. -/
theorem Datasource_Query_refIds_counterexample :
    ((∀ q ∈ Example.oneQuery.Queries.elems, ∃ mr rq,
      Example.unmarshal q.ModelJson = Except.ok mr ∧
      Example.shortPointDatasource.MetricQueryConverter mr.Query = Go.returns (rq, none)) ∧
    (∀ request, Example.shortPointDatasource.KairosDBClient (Context.mk 0)
      Example.oneQuery.Datasource request
        = Go.returns (Slice.of [some Example.shortPointResults], none)) ∧
    (Slice.of [some Example.shortPointResults]).len = Example.oneQuery.Queries.len ∧
    (Example.shortPointDatasource.Query Example.unmarshal (Context.mk 0) Example.oneQuery).outcome
      = Go.panics (RuntimePanic.indexOutOfRange 1 1) ∧
    ¬ ∃ response,
      (Example.shortPointDatasource.Query Example.unmarshal (Context.mk 0)
        Example.oneQuery).outcome = Go.returns (some response, none)) ∧
    ((∀ q ∈ Example.noTimeRange.Queries.elems, ∃ mr rq,
      Example.unmarshal q.ModelJson = Except.ok mr ∧
      Example.datasource.MetricQueryConverter mr.Query = Go.returns (rq, none)) ∧
    (∀ request, Example.datasource.KairosDBClient (Context.mk 0)
      Example.noTimeRange.Datasource request
        = Go.returns (Slice.of [some Example.firstResults, some Example.secondResults], none)) ∧
    (∀ r ∈ [some Example.firstResults, some Example.secondResults],
      ∃ qr, Example.datasource.ParseQueryResult r = Go.returns qr) ∧
    (Slice.of [some Example.firstResults, some Example.secondResults]).len
      = Example.noTimeRange.Queries.len ∧
    (Example.datasource.Query Example.unmarshal (Context.mk 0) Example.noTimeRange).outcome
      = Go.panics RuntimePanic.nilDereference ∧
    ¬ ∃ response,
      (Example.datasource.Query Example.unmarshal (Context.mk 0)
        Example.noTimeRange).outcome = Go.returns (some response, none)) := by
  have h : (Example.shortPointDatasource.Query Example.unmarshal (Context.mk 0)
      Example.oneQuery).outcome = Go.panics (RuntimePanic.indexOutOfRange 1 1) := rfl
  have h2 : (Example.datasource.Query Example.unmarshal (Context.mk 0)
      Example.noTimeRange).outcome = Go.panics RuntimePanic.nilDereference := rfl
  refine ⟨⟨?_, fun _ => rfl, rfl, h, ?_⟩, ⟨?_, fun _ => rfl, ?_, rfl, h2, ?_⟩⟩
  · intro q hq
    simp only [Example.oneQuery, Slice.elems, List.mem_singleton] at hq
    subst hq
    exact ⟨_, _, rfl, rfl⟩
  · rw [h]
    simp
  · intro q hq
    simp only [Example.noTimeRange, Slice.elems, List.mem_cons, List.mem_singleton,
      List.not_mem_nil, or_false] at hq
    rcases hq with hq | hq <;> subst hq <;> exact ⟨_, _, rfl, rfl⟩
  · intro r hr
    simp only [List.mem_cons, List.mem_singleton, List.not_mem_nil, or_false] at hr
    rcases hr with hr | hr <;> subst hr <;> exact ⟨_, rfl⟩
  · rw [h2]
    simp

/-- C1, amended: for every batch of N queries whose payloads all deserialize and convert,
and every remote response of exactly N result sets, given to the call that `Query` makes
(it makes the call when the time range of the request is non-nil), on each of which
`ParseQueryResult` returns, `Query` returns a response and no error; the response has
exactly N results, and result `i` is `ParseQueryResult` of remote result set `i` with
`RefId` set to the reference id of query `i`. -/
theorem Datasource_Query_refIds_by_position (ds : Datasource) (unmarshal : json.Unmarshal)
    (ctx : Context) (dsRequest : datasource.DatasourceRequest)
    (results : Slice (Option remote.MetricQueryResults))
    (hconv : ∀ q ∈ dsRequest.Queries.elems, ∃ mr rq, unmarshal q.ModelJson = Except.ok mr ∧
      ds.MetricQueryConverter mr.Query = Go.returns (rq, none))
    (hremote : ∃ request,
      Event.QueryMetrics ctx dsRequest.Datasource request ∈ (ds.Query unmarshal ctx dsRequest).trace ∧
      ds.KairosDBClient ctx dsRequest.Datasource request = Go.returns (results, none))
    (hcount : results.len = dsRequest.Queries.len)
    (hparse : ∀ r ∈ results.elems, ∃ qr, ds.ParseQueryResult r = Go.returns qr) :
    ∃ out,
      (ds.Query unmarshal ctx dsRequest).outcome
        = Go.returns (some { Results := Slice.of out }, none) ∧
      out.length = dsRequest.Queries.len ∧
      ∀ i, i < dsRequest.Queries.len →
        ∃ q r qr, dsRequest.Queries.elems[i]? = some q ∧ results.elems[i]? = some r ∧
          ds.ParseQueryResult r = Go.returns qr ∧
          out[i]? = some { qr with RefId := q.RefId } := by
  obtain ⟨request, hmem, hcall⟩ := hremote
  obtain ⟨timeRange, htime⟩ :=
    Query_call_timeRange ds unmarshal ctx dsRequest hconv _ _ request hmem
  obtain ⟨rqs, _, htrace, _, _, hok⟩ :=
    Query_all_converted ds unmarshal ctx dsRequest timeRange hconv htime
  rw [htrace, List.mem_singleton, Event.QueryMetrics.injEq] at hmem
  rw [hmem.2.2] at hcall
  have hlen : results.elems.length
      = (dsRequest.Queries.elems.map datasource.Query.RefId).length := by
    simpa [Slice.len] using hcount
  obtain ⟨out, hout, hrun⟩ := attachRefIds_all_ok ds
    (Slice.of (dsRequest.Queries.elems.map datasource.Query.RefId)) results.elems []
    (dsRequest.Queries.elems.map datasource.Query.RefId) (Slice.of []) rfl (le_of_eq hlen) hparse
  rw [Slice.foldl_append_of_nil] at hrun
  have hzip : (results.elems.zip (dsRequest.Queries.elems.map datasource.Query.RefId)).length
      = dsRequest.Queries.len := by
    rw [List.length_zip, hlen, min_self, List.length_map]
    rfl
  refine ⟨out, (hok results hcall).2 _ hrun, ?_, fun i hi => ?_⟩
  · rw [← hout.length_eq, hzip]
  · obtain ⟨p, o, hp, ho, qr, hqr, hoeq⟩ := forall₂_getElem? hout i (by rw [hzip]; exact hi)
    obtain ⟨hr, hid⟩ := List.getElem?_zip_eq_some.mp hp
    rw [List.getElem?_map] at hid
    obtain ⟨q, hq, hqid⟩ := Option.map_eq_some'.mp hid
    exact ⟨q, p.1, qr, hq, hr, hqr, by rw [ho, hoeq, hqid]⟩

/-- Witness of C1, amended: the reference ids `A` and `B` on two queries with the same
content; the series returned under `A` is `first`, the one of the first result set. -/
theorem Datasource_Query_refIds_by_position_witness :
    (∃ out,
      (Example.datasource.Query Example.unmarshal (Context.mk 0) Example.twoQueries).outcome
        = Go.returns (some { Results := Slice.of out }, none) ∧
      out.length = Example.twoQueries.Queries.len ∧
      ∀ i, i < Example.twoQueries.Queries.len →
        ∃ q r qr, Example.twoQueries.Queries.elems[i]? = some q ∧
          (Slice.of [some Example.firstResults, some Example.secondResults]).elems[i]? = some r ∧
          Example.datasource.ParseQueryResult r = Go.returns qr ∧
          out[i]? = some { qr with RefId := q.RefId }) ∧
    (Example.datasource.Query Example.unmarshal (Context.mk 0) Example.twoQueries).outcome
      = Go.returns (some Example.twoQueriesResponse, none) :=
  ⟨Datasource_Query_refIds_by_position Example.datasource Example.unmarshal (Context.mk 0)
    Example.twoQueries (Slice.of [some Example.firstResults, some Example.secondResults])
    (by
      intro q hq
      simp only [Example.twoQueries, Slice.elems, List.mem_cons, List.mem_singleton,
        List.not_mem_nil, or_false] at hq
      rcases hq with h | h <;> subst h <;> exact ⟨_, _, rfl, rfl⟩)
    ⟨_, List.mem_singleton_self _, rfl⟩ rfl
    (by
      intro r hr
      simp only [Slice.elems, List.mem_cons, List.mem_singleton, List.not_mem_nil,
        or_false] at hr
      rcases hr with h | h <;> subst h <;> exact ⟨_, rfl⟩),
   rfl⟩

/-- C7: for every batch in which query `q` is the first whose payload fails to
deserialize, the queries before it deserializing and converting, `Query` returns no
response and an error of code `InvalidArgument`, the one `createRemoteMetricQuery` makes
from the deserialization error; and `QueryMetrics` is not called. -/
theorem Datasource_Query_malformed_payload (ds : Datasource) (unmarshal : json.Unmarshal)
    (ctx : Context) (dsRequest : datasource.DatasourceRequest)
    (before after : List datasource.Query) (q : datasource.Query) (e : GoError)
    (hsplit : dsRequest.Queries.elems = before ++ q :: after)
    (hbefore : ∀ x ∈ before, ∃ mr rq, unmarshal x.ModelJson = Except.ok mr ∧
      ds.MetricQueryConverter mr.Query = Go.returns (rq, none))
    (hq : unmarshal q.ModelJson = Except.error e) :
    ∃ err, (ds.Query unmarshal ctx dsRequest).outcome = Go.returns (none, some err) ∧
      err.code = Code.InvalidArgument ∧
      err = status.Errorf Code.InvalidArgument
        ("failed to unmarshal request model: " ++ e.Error) ∧
      ∀ c info request,
        Event.QueryMetrics c info request ∉ (ds.Query unmarshal ctx dsRequest).trace := by
  have hrun := convertQueries_unmarshal_error ds unmarshal before after q e
    { refIds := Slice.of [], remoteQueries := Slice.nil } hbefore hq
  rw [← hsplit] at hrun
  refine ⟨status.Errorf Code.InvalidArgument
    ("failed to unmarshal request model: " ++ e.Error), ?_, rfl, rfl, fun c info request => ?_⟩
  · simp only [Datasource.Query, hrun]
  · simp only [Datasource.Query, hrun, List.mem_singleton]
    exact fun h => Event.noConfusion h

/-- Witness of C7: three queries, the payload of the second malformed. -/
theorem Datasource_Query_malformed_payload_witness :
    ∃ err,
      (Example.datasource.Query Example.unmarshal (Context.mk 0) Example.threeQueries).outcome
        = Go.returns (none, some err) ∧
      err.code = Code.InvalidArgument ∧
      err = status.Errorf Code.InvalidArgument
        ("failed to unmarshal request model: "
          ++ (GoError.other "unexpected end of JSON input").Error) ∧
      ∀ c info request, Event.QueryMetrics c info request ∉
        (Example.datasource.Query Example.unmarshal (Context.mk 0) Example.threeQueries).trace :=
  Datasource_Query_malformed_payload Example.datasource Example.unmarshal (Context.mk 0)
    Example.threeQueries [{ RefId := "A", ModelJson := "cpu.load" }]
    [{ RefId := "C", ModelJson := "mem.free" }] { RefId := "B", ModelJson := "malformed" }
    (GoError.other "unexpected end of JSON input") rfl
    (by
      intro x hx
      rw [List.mem_singleton] at hx
      subst hx
      exact ⟨_, _, rfl, rfl⟩)
    rfl

/-- Counterexample to C8: two queries that deserialize and convert, in a request without
time range: `Query` panics on the nil time range at line 35 and makes no call to
`QueryMetrics`. -/
theorem Datasource_Query_remote_call_counterexample :
    (∀ q ∈ Example.noTimeRange.Queries.elems, ∃ mr rq,
      Example.unmarshal q.ModelJson = Except.ok mr ∧
      Example.datasource.MetricQueryConverter mr.Query = Go.returns (rq, none)) ∧
    (Example.datasource.Query Example.unmarshal (Context.mk 7) Example.noTimeRange).outcome
      = Go.panics RuntimePanic.nilDereference ∧
    (Example.datasource.Query Example.unmarshal (Context.mk 7) Example.noTimeRange).trace = [] ∧
    ¬ ∃ request,
      (Example.datasource.Query Example.unmarshal (Context.mk 7) Example.noTimeRange).trace
        = [Event.QueryMetrics (Context.mk 7) Example.noTimeRange.Datasource request] := by
  have h : (Example.datasource.Query Example.unmarshal (Context.mk 7) Example.noTimeRange).trace
      = [] := rfl
  refine ⟨?_, rfl, h, ?_⟩
  · intro q hq
    simp only [Example.noTimeRange, Slice.elems, List.mem_cons, List.mem_singleton,
      List.not_mem_nil, or_false] at hq
    rcases hq with hq | hq <;> subst hq <;> exact ⟨_, _, rfl, rfl⟩
  · rw [h]
    simp

/-- C8, amended: for every batch with a non-nil time range whose queries all deserialize
and convert, `Query` makes exactly one call, `QueryMetrics`, with the context of the
caller and the data-source descriptor of the request, on a request whose `StartAbsolute`
is `TimeRange.FromEpochMs`, whose `EndAbsolute` is `TimeRange.ToEpochMs`, and whose
`Metrics` has one entry per query, entry `i` being the result of the metric query
converter on query `i`. -/
theorem Datasource_Query_remote_call (ds : Datasource) (unmarshal : json.Unmarshal)
    (ctx : Context) (dsRequest : datasource.DatasourceRequest)
    (timeRange : datasource.TimeRange)
    (htime : dsRequest.TimeRange = some timeRange)
    (hconv : ∀ q ∈ dsRequest.Queries.elems, ∃ mr rq, unmarshal q.ModelJson = Except.ok mr ∧
      ds.MetricQueryConverter mr.Query = Go.returns (rq, none)) :
    ∃ request,
      (ds.Query unmarshal ctx dsRequest).trace
        = [Event.QueryMetrics ctx dsRequest.Datasource request] ∧
      request.StartAbsolute = timeRange.FromEpochMs ∧
      request.EndAbsolute = timeRange.ToEpochMs ∧
      request.Metrics.len = dsRequest.Queries.len ∧
      ∀ i, i < dsRequest.Queries.len →
        ∃ q mr rq, dsRequest.Queries.elems[i]? = some q ∧
          unmarshal q.ModelJson = Except.ok mr ∧
          ds.MetricQueryConverter mr.Query = Go.returns (rq, none) ∧
          request.Metrics.elems[i]? = some rq := by
  obtain ⟨rqs, hrqs, htrace, _⟩ :=
    Query_all_converted ds unmarshal ctx dsRequest timeRange hconv htime
  have helems : (rqs.foldl Slice.append (Slice.nil : Slice (Option remote.MetricQuery))).elems
      = rqs := by
    rw [Slice.elems_foldl_append]; rfl
  refine ⟨_, htrace, rfl, rfl, ?_, fun i hi => ?_⟩
  · simp only [Slice.len, helems]
    exact hrqs.length_eq.symm
  · obtain ⟨q, rq, hq, hrq, mr, hmr, hconvq⟩ := forall₂_getElem? hrqs i hi
    exact ⟨q, mr, rq, hq, hmr, hconvq, by simpa only [helems] using hrq⟩

/-- Witness of C8, amended: the batch of two queries over the time range 1000 to 2000. -/
theorem Datasource_Query_remote_call_witness :
    ∃ request,
      (Example.datasource.Query Example.unmarshal (Context.mk 7) Example.twoQueries).trace
        = [Event.QueryMetrics (Context.mk 7) Example.twoQueries.Datasource request] ∧
      request.StartAbsolute = 1000 ∧
      request.EndAbsolute = 2000 ∧
      request.Metrics.len = Example.twoQueries.Queries.len ∧
      ∀ i, i < Example.twoQueries.Queries.len →
        ∃ q mr rq, Example.twoQueries.Queries.elems[i]? = some q ∧
          Example.unmarshal q.ModelJson = Except.ok mr ∧
          Example.datasource.MetricQueryConverter mr.Query = Go.returns (rq, none) ∧
          request.Metrics.elems[i]? = some rq :=
  Datasource_Query_remote_call Example.datasource Example.unmarshal (Context.mk 7)
    Example.twoQueries { FromEpochMs := 1000, ToEpochMs := 2000 } rfl (by
      intro q hq
      simp only [Example.twoQueries, Slice.elems, List.mem_cons, List.mem_singleton,
        List.not_mem_nil, or_false] at hq
      rcases hq with h | h <;> subst h <;> exact ⟨_, _, rfl, rfl⟩)

/-! ## Metric query converter: group-by, name and tags -/

/-- C11: `MetricQueryConverterImpl` with `GroupByConverterImpl` and any aggregator
converter that succeeds on the aggregators of the query returns a remote query whose
group-by is exactly the one grouper named "tag" with the group-by tags of the query, in
order, when the GroupBy of the query is non-nil with at least one tag; and is nil, so
without any grouper, when the GroupBy is nil or has no tag. -/
theorem MetricQueryConverterImpl_Convert_groupBy_shape (aggregatorConverter : AggregatorConverter)
    (query : MetricQuery)
    (hagg : ∀ a ∈ query.Aggregators.elems, ∃ r, aggregatorConverter a = Go.returns (r, none)) :
    ∃ remoteQuery,
      (MetricQueryConverterImpl.mk aggregatorConverter GroupByConverterImpl.Convert).Convert
        (some query) = Go.returns (some remoteQuery, none) ∧
      (∀ groupBy, query.GroupBy = some groupBy → 0 < groupBy.Tags.len →
        remoteQuery.GroupBy = Slice.of [some { Name := "tag", Tags := groupBy.Tags }]) ∧
      (∀ groupBy, query.GroupBy = some groupBy → groupBy.Tags.len = 0 →
        remoteQuery.GroupBy = Slice.nil) ∧
      (query.GroupBy = none → remoteQuery.GroupBy = Slice.nil) := by
  obtain ⟨rs, _, hrun⟩ := convertAggregators_all_ok
    (MetricQueryConverterImpl.mk aggregatorConverter GroupByConverterImpl.Convert)
    query.Aggregators.elems
    { Name := query.Name, Tags := query.Tags, Aggregators := Slice.nil, GroupBy := Slice.nil } hagg
  cases hq : query.GroupBy with
  | none =>
    refine ⟨remote.MetricQuery.mk query.Name query.Tags (rs.foldl Slice.append Slice.nil)
      Slice.nil, ?_, ?_, ?_, fun _ => rfl⟩
    · simp only [MetricQueryConverterImpl.Convert, hrun, hq]
    · intro groupBy h
      exact absurd h (by simp)
    · intro groupBy h
      exact absurd h (by simp)
  | some g =>
    by_cases hlen : 0 < g.Tags.len
    · refine ⟨remote.MetricQuery.mk query.Name query.Tags (rs.foldl Slice.append Slice.nil)
        (Slice.of [some { Name := "tag", Tags := g.Tags }]), ?_, ?_, ?_, ?_⟩
      · simp only [MetricQueryConverterImpl.Convert, hrun, hq, GroupByConverterImpl.Convert,
          hlen, if_true]
      · intro groupBy h _
        rw [Option.some.injEq] at h
        subst h
        rfl
      · intro groupBy h h0
        rw [Option.some.injEq] at h
        subst h
        omega
      · intro h
        exact absurd h (by simp)
    · refine ⟨remote.MetricQuery.mk query.Name query.Tags (rs.foldl Slice.append Slice.nil)
        Slice.nil, ?_, ?_, ?_, fun _ => rfl⟩
      · simp only [MetricQueryConverterImpl.Convert, hrun, hq, GroupByConverterImpl.Convert,
          hlen, if_false]
      · intro groupBy h hpos
        rw [Option.some.injEq] at h
        subst h
        exact absurd hpos hlen
      · intro groupBy _ _
        rfl

/-- Witness of C11: the scenario query `cpu.load`, whose remote query has the name
`cpu.load`, the one aggregator converted from `avg`, and the one grouper `tag` on `host`. -/
theorem MetricQueryConverterImpl_Convert_groupBy_shape_witness :
    (∃ remoteQuery,
      (MetricQueryConverterImpl.mk Example.namedAggregator GroupByConverterImpl.Convert).Convert
        (some Example.cpuLoadQuery) = Go.returns (some remoteQuery, none) ∧
      (∀ groupBy, Example.cpuLoadQuery.GroupBy = some groupBy → 0 < groupBy.Tags.len →
        remoteQuery.GroupBy = Slice.of [some { Name := "tag", Tags := groupBy.Tags }]) ∧
      (∀ groupBy, Example.cpuLoadQuery.GroupBy = some groupBy → groupBy.Tags.len = 0 →
        remoteQuery.GroupBy = Slice.nil) ∧
      (Example.cpuLoadQuery.GroupBy = none → remoteQuery.GroupBy = Slice.nil)) ∧
    (MetricQueryConverterImpl.mk Example.namedAggregator GroupByConverterImpl.Convert).Convert
      (some Example.cpuLoadQuery) = Go.returns (some Example.cpuLoadRemoteQuery, none) :=
  ⟨MetricQueryConverterImpl_Convert_groupBy_shape Example.namedAggregator Example.cpuLoadQuery
    (by
      intro a ha
      simp only [Example.cpuLoadQuery, Slice.elems, List.mem_singleton] at ha
      subst ha
      exact ⟨_, rfl⟩),
   rfl⟩

/-- C13: for every non-nil query on which `MetricQueryConverterImpl.Convert` succeeds, the
remote query it returns is non-nil, its name is the name of the query and its tags are the
tags of the query, whatever the aggregators, the GroupBy and the injected converters. -/
theorem MetricQueryConverterImpl_Convert_name_tags (c : MetricQueryConverterImpl)
    (query : MetricQuery) (result : Option remote.MetricQuery)
    (h : c.Convert (some query) = Go.returns (result, none)) :
    ∃ remoteQuery, result = some remoteQuery ∧ remoteQuery.Name = query.Name ∧
      remoteQuery.Tags = query.Tags := by
  simp only [MetricQueryConverterImpl.Convert] at h
  split at h
  · exact absurd h (by simp)
  · exact absurd h (by simp)
  · rename_i out hout
    have hframe := convertAggregators_frame c _ _ out hout
    split at h
    · simp only [Go.returns.injEq, Prod.mk.injEq, and_true] at h
      exact ⟨out, h.symm, hframe.1, hframe.2.1⟩
    · split at h
      · exact absurd h (by simp)
      · exact absurd h (by simp)
      · simp only [Go.returns.injEq, Prod.mk.injEq, and_true] at h
        exact ⟨_, h.symm, hframe.1, hframe.2.1⟩

/-- Witness of C13: the scenario query `cpu.load`. -/
theorem MetricQueryConverterImpl_Convert_name_tags_witness :
    ∃ remoteQuery, some Example.cpuLoadRemoteQuery = some remoteQuery ∧
      remoteQuery.Name = Example.cpuLoadQuery.Name ∧
      remoteQuery.Tags = Example.cpuLoadQuery.Tags :=
  MetricQueryConverterImpl_Convert_name_tags Example.converter Example.cpuLoadQuery
    (some Example.cpuLoadRemoteQuery) rfl

/-- C17: for every non-nil query whose aggregators all convert,
`MetricQueryConverterImpl.Convert` returns an error exactly when the GroupBy of the query
is non-nil and the GroupBy converter returns an error on it; the error is then that of
the converter and no remote query is returned.  When the converter succeeds on a non-nil
GroupBy, `Convert` succeeds.  When the GroupBy is nil, `Convert` succeeds with the
group-by field nil, whatever the GroupBy converter.  `Convert` panics exactly when the
converter panics on a non-nil GroupBy.  Nothing is required of the name. -/
theorem MetricQueryConverterImpl_Convert_groupBy_errors (c : MetricQueryConverterImpl)
    (query : MetricQuery)
    (hagg : ∀ a ∈ query.Aggregators.elems, ∃ r, c.AggregatorConverter a = Go.returns (r, none)) :
    (∀ result err, c.Convert (some query) = Go.returns (result, some err) ↔
      result = none ∧ ∃ groupBy v, query.GroupBy = some groupBy ∧
        c.GroupByConverter (some groupBy) = Go.returns (v, some err)) ∧
    (∀ groupBy v, query.GroupBy = some groupBy →
      c.GroupByConverter (some groupBy) = Go.returns (v, none) →
      ∃ remoteQuery, c.Convert (some query) = Go.returns (some remoteQuery, none) ∧
        remoteQuery.GroupBy = v) ∧
    (query.GroupBy = none →
      ∃ remoteQuery, c.Convert (some query) = Go.returns (some remoteQuery, none) ∧
        remoteQuery.GroupBy = Slice.nil) ∧
    (∀ p, c.Convert (some query) = Go.panics p ↔
      ∃ groupBy, query.GroupBy = some groupBy ∧
        c.GroupByConverter (some groupBy) = Go.panics p) := by
  obtain ⟨rs, _, hrun⟩ := convertAggregators_all_ok c query.Aggregators.elems
    { Name := query.Name, Tags := query.Tags, Aggregators := Slice.nil, GroupBy := Slice.nil } hagg
  refine ⟨fun result err => ⟨fun h => ?_, fun h => ?_⟩, fun groupBy v hq hv => ?_, fun hq => ?_,
    fun p => ⟨fun h => ?_, fun h => ?_⟩⟩
  · simp only [MetricQueryConverterImpl.Convert, hrun] at h
    split at h
    · exact absurd h (by simp)
    · rename_i groupBy hq
      split at h
      · exact absurd h (by simp)
      · rename_i v e hv
        simp only [Go.returns.injEq, Prod.mk.injEq, Option.some.injEq] at h
        exact ⟨h.1.symm, groupBy, v, hq, by rw [← h.2]; exact hv⟩
      · exact absurd h (by simp)
  · obtain ⟨hresult, groupBy, v, hq, hv⟩ := h
    simp only [MetricQueryConverterImpl.Convert, hrun, hq, hv, hresult]
  · exact ⟨remote.MetricQuery.mk query.Name query.Tags (rs.foldl Slice.append Slice.nil) v,
      by simp only [MetricQueryConverterImpl.Convert, hrun, hq, hv], rfl⟩
  · exact ⟨remote.MetricQuery.mk query.Name query.Tags (rs.foldl Slice.append Slice.nil)
      Slice.nil, by simp only [MetricQueryConverterImpl.Convert, hrun, hq], rfl⟩
  · simp only [MetricQueryConverterImpl.Convert, hrun] at h
    split at h
    · exact absurd h (by simp)
    · rename_i groupBy hq
      split at h
      · rename_i p2 hp
        simp only [Go.panics.injEq] at h
        exact ⟨groupBy, hq, by rw [← h]; exact hp⟩
      · exact absurd h (by simp)
      · exact absurd h (by simp)
  · obtain ⟨groupBy, hq, hp⟩ := h
    simp only [MetricQueryConverterImpl.Convert, hrun, hq, hp]

/-- Witness of C17: with a GroupBy converter that fails on every input, the query with
an empty name and a nil GroupBy converts, and the query grouped by `host` fails with the
error of the converter. -/
theorem MetricQueryConverterImpl_Convert_groupBy_errors_witness :
    (∃ remoteQuery,
      (MetricQueryConverterImpl.mk Example.namedAggregator Example.failingGroupBy).Convert
        (some Example.namelessQuery) = Go.returns (some remoteQuery, none) ∧
      remoteQuery.GroupBy = Slice.nil) ∧
    (MetricQueryConverterImpl.mk Example.namedAggregator Example.failingGroupBy).Convert
      (some Example.groupedQuery)
        = Go.returns (none, some (GoError.other "grouping is not supported")) :=
  ⟨(MetricQueryConverterImpl_Convert_groupBy_errors
      (MetricQueryConverterImpl.mk Example.namedAggregator Example.failingGroupBy)
      Example.namelessQuery (by
        intro a ha
        simp only [Example.namelessQuery, Slice.elems, List.mem_singleton] at ha
        subst ha
        exact ⟨_, rfl⟩)).2.2.1 rfl,
   ((MetricQueryConverterImpl_Convert_groupBy_errors
      (MetricQueryConverterImpl.mk Example.namedAggregator Example.failingGroupBy)
      Example.groupedQuery (by
        intro a ha
        simp [Example.groupedQuery, Slice.elems] at ha)).1 none
      (GoError.other "grouping is not supported")).mpr
      ⟨rfl, { Tags := Slice.of ["host"] }, Slice.nil, rfl, rfl⟩⟩

/-! ## Query: failures -/

/-- First query whose conversion returns an error, its payload and those of the queries
before it deserializing and the queries before it converting: the loop makes no call and
returns the error of the converter, whatever queries follow. -/
theorem convertQueries_convert_error (ds : Datasource) (unmarshal : json.Unmarshal)
    (before after : List datasource.Query) (q : datasource.Query) (mr : MetricRequest)
    (v : Option remote.MetricQuery) (e : GoError) (locals : Datasource.QueryLocals)
    (hbefore : ∀ x ∈ before, ∃ mr rq, unmarshal x.ModelJson = Except.ok mr ∧
      ds.MetricQueryConverter mr.Query = Go.returns (rq, none))
    (hq : unmarshal q.ModelJson = Except.ok mr)
    (he : ds.MetricQueryConverter mr.Query = Go.returns (v, some e)) :
    ds.convertQueries unmarshal (before ++ q :: after) locals
      = { trace := [], outcome := Go.returns (Flow.returned (none, some e)) } := by
  induction before generalizing locals with
  | nil =>
    simp only [List.nil_append, Datasource.convertQueries, Datasource.createRemoteMetricQuery,
      hq, he]
  | cons x rest ih =>
    obtain ⟨mrx, rq, hmr, hrq⟩ := hbefore x (List.mem_cons_self x rest)
    have hrest := ih (Datasource.QueryLocals.mk (locals.refIds.append x.RefId)
      (locals.remoteQueries.append rq)) (fun y hy => hbefore y (List.mem_cons_of_mem x hy))
    show ds.convertQueries unmarshal (x :: (rest ++ q :: after)) locals = _
    simp only [Datasource.convertQueries, Datasource.createRemoteMetricQuery, hmr, hrq, hrest,
      List.nil_append]

/-- C14: for every batch in which the payloads up to and including that of query `q`
deserialize, the queries before `q` convert, and the metric query converter returns the
error `e` on `q`, `Query` returns `e` itself and no response, and `QueryMetrics` is not
called. -/
theorem Datasource_Query_conversion_failure (ds : Datasource) (unmarshal : json.Unmarshal)
    (ctx : Context) (dsRequest : datasource.DatasourceRequest)
    (before after : List datasource.Query) (q : datasource.Query) (mr : MetricRequest)
    (v : Option remote.MetricQuery) (e : GoError)
    (hsplit : dsRequest.Queries.elems = before ++ q :: after)
    (hbefore : ∀ x ∈ before, ∃ mr rq, unmarshal x.ModelJson = Except.ok mr ∧
      ds.MetricQueryConverter mr.Query = Go.returns (rq, none))
    (hq : unmarshal q.ModelJson = Except.ok mr)
    (he : ds.MetricQueryConverter mr.Query = Go.returns (v, some e)) :
    (ds.Query unmarshal ctx dsRequest).outcome = Go.returns (none, some e) ∧
    ∀ c info request,
      Event.QueryMetrics c info request ∉ (ds.Query unmarshal ctx dsRequest).trace := by
  have hrun := convertQueries_convert_error ds unmarshal before after q mr v e
    { refIds := Slice.of [], remoteQueries := Slice.nil } hbefore hq he
  rw [← hsplit] at hrun
  refine ⟨?_, fun c info request => ?_⟩
  · simp only [Datasource.Query, hrun]
  · simp only [Datasource.Query, hrun, List.not_mem_nil, not_false_eq_true]

/-- Witness of C14: the second of three queries is rejected by the converter. -/
theorem Datasource_Query_conversion_failure_witness :
    (Example.rejectingDatasource.Query Example.unmarshal (Context.mk 0)
        Example.rejectedThenMalformed).outcome
      = Go.returns (none, some (GoError.other "metric is not allowed")) ∧
    ∀ c info request, Event.QueryMetrics c info request ∉
      (Example.rejectingDatasource.Query Example.unmarshal (Context.mk 0)
        Example.rejectedThenMalformed).trace :=
  Datasource_Query_conversion_failure Example.rejectingDatasource Example.unmarshal
    (Context.mk 0) Example.rejectedThenMalformed [{ RefId := "A", ModelJson := "cpu.load" }]
    [{ RefId := "C", ModelJson := "malformed" }] { RefId := "B", ModelJson := "forbidden" }
    { Query := some { Name := "forbidden", Tags := [], Aggregators := Slice.nil, GroupBy := none } }
    none (GoError.other "metric is not allowed") rfl
    (by
      intro x hx
      rw [List.mem_singleton] at hx
      subst hx
      exact ⟨_, _, rfl, rfl⟩)
    rfl rfl

/-- C18: for every batch in which the metric query converter returns the error `e` on
query `q`, whose payload deserializes, the queries before `q` deserializing and
converting, and the payload of a later query `j` is malformed, `Query` returns `e`; it
makes no call, not even the logger call that a deserialization failure makes; it does not
return the invalid-argument error that `createRemoteMetricQuery` makes for `j`, unless
that is `e` itself; and the run is the same
under every deserializer that agrees on the payloads up to `q`, so no later payload is
read. -/
theorem Datasource_Query_earliest_failure (ds : Datasource) (unmarshal : json.Unmarshal)
    (ctx : Context) (dsRequest : datasource.DatasourceRequest)
    (before between after : List datasource.Query) (q j : datasource.Query)
    (mr : MetricRequest) (v : Option remote.MetricQuery) (e e2 : GoError)
    (hsplit : dsRequest.Queries.elems = before ++ q :: (between ++ j :: after))
    (hbefore : ∀ x ∈ before, ∃ mr rq, unmarshal x.ModelJson = Except.ok mr ∧
      ds.MetricQueryConverter mr.Query = Go.returns (rq, none))
    (hq : unmarshal q.ModelJson = Except.ok mr)
    (he : ds.MetricQueryConverter mr.Query = Go.returns (v, some e))
    (hj : unmarshal j.ModelJson = Except.error e2) :
    (ds.Query unmarshal ctx dsRequest).outcome = Go.returns (none, some e) ∧
    (ds.Query unmarshal ctx dsRequest).trace = [] ∧
    (ds.createRemoteMetricQuery unmarshal j).outcome
      = Go.returns (none, some (status.Errorf Code.InvalidArgument
          ("failed to unmarshal request model: " ++ e2.Error))) ∧
    (e ≠ status.Errorf Code.InvalidArgument ("failed to unmarshal request model: " ++ e2.Error) →
      (ds.Query unmarshal ctx dsRequest).outcome
        ≠ Go.returns (none, some (status.Errorf Code.InvalidArgument
            ("failed to unmarshal request model: " ++ e2.Error)))) ∧
    ∀ other : json.Unmarshal,
      (∀ x ∈ before, other x.ModelJson = unmarshal x.ModelJson) →
      other q.ModelJson = unmarshal q.ModelJson →
      (ds.Query other ctx dsRequest).outcome = (ds.Query unmarshal ctx dsRequest).outcome ∧
      (ds.Query other ctx dsRequest).trace = (ds.Query unmarshal ctx dsRequest).trace := by
  have hrun := convertQueries_convert_error ds unmarshal before (between ++ j :: after) q mr v e
    { refIds := Slice.of [], remoteQueries := Slice.nil } hbefore hq he
  rw [← hsplit] at hrun
  have hout : (ds.Query unmarshal ctx dsRequest).outcome = Go.returns (none, some e) := by
    simp only [Datasource.Query, hrun]
  have htrace : (ds.Query unmarshal ctx dsRequest).trace = [] := by
    simp only [Datasource.Query, hrun]
  refine ⟨hout, htrace, ?_, fun hne => ?_, fun other hother hotherq => ?_⟩
  · simp only [Datasource.createRemoteMetricQuery, hj]
  · rw [hout]
    intro heq
    simp only [Go.returns.injEq, Prod.mk.injEq, Option.some.injEq, true_and] at heq
    exact hne heq
  · have hrun2 := convertQueries_convert_error ds other before (between ++ j :: after) q mr v e
      { refIds := Slice.of [], remoteQueries := Slice.nil }
      (fun x hx => by rw [hother x hx]; exact hbefore x hx) (by rw [hotherq]; exact hq) he
    rw [← hsplit] at hrun2
    rw [hout, htrace]
    constructor
    · simp only [Datasource.Query, hrun2]
    · simp only [Datasource.Query, hrun2]

/-- Witness of C18: the second query is rejected by the converter and the payload of
the third is malformed; the error returned is the one of the converter. -/
theorem Datasource_Query_earliest_failure_witness :
    (Example.rejectingDatasource.Query Example.unmarshal (Context.mk 0)
        Example.rejectedThenMalformed).outcome
      = Go.returns (none, some (GoError.other "metric is not allowed")) ∧
    (Example.rejectingDatasource.Query Example.unmarshal (Context.mk 0)
        Example.rejectedThenMalformed).trace = [] :=
  have h := Datasource_Query_earliest_failure Example.rejectingDatasource Example.unmarshal
    (Context.mk 0) Example.rejectedThenMalformed [{ RefId := "A", ModelJson := "cpu.load" }]
    [] [] { RefId := "B", ModelJson := "forbidden" } { RefId := "C", ModelJson := "malformed" }
    { Query := some { Name := "forbidden", Tags := [], Aggregators := Slice.nil, GroupBy := none } }
    none (GoError.other "metric is not allowed") (GoError.other "unexpected end of JSON input")
    rfl
    (by
      intro x hx
      rw [List.mem_singleton] at hx
      subst hx
      exact ⟨_, _, rfl, rfl⟩)
    rfl rfl rfl
  ⟨h.1, h.2.1⟩

/-- C15: for every batch whose queries all deserialize and convert, if the remote client
answers a call of `Query` to `QueryMetrics` with the error `e`, `Query` returns `e`
itself and no response, and that call is the only call it made. -/
theorem Datasource_Query_remote_failure (ds : Datasource) (unmarshal : json.Unmarshal)
    (ctx : Context) (dsRequest : datasource.DatasourceRequest)
    (v : Slice (Option remote.MetricQueryResults)) (e : GoError)
    (hconv : ∀ q ∈ dsRequest.Queries.elems, ∃ mr rq, unmarshal q.ModelJson = Except.ok mr ∧
      ds.MetricQueryConverter mr.Query = Go.returns (rq, none))
    (hremote : ∃ request,
      Event.QueryMetrics ctx dsRequest.Datasource request ∈ (ds.Query unmarshal ctx dsRequest).trace ∧
      ds.KairosDBClient ctx dsRequest.Datasource request = Go.returns (v, some e)) :
    (ds.Query unmarshal ctx dsRequest).outcome = Go.returns (none, some e) ∧
    ∃ request, (ds.Query unmarshal ctx dsRequest).trace
      = [Event.QueryMetrics ctx dsRequest.Datasource request] := by
  obtain ⟨request, hmem, hcall⟩ := hremote
  obtain ⟨timeRange, htime⟩ :=
    Query_call_timeRange ds unmarshal ctx dsRequest hconv _ _ request hmem
  obtain ⟨rqs, _, htrace, _, herr, _⟩ :=
    Query_all_converted ds unmarshal ctx dsRequest timeRange hconv htime
  rw [htrace, List.mem_singleton, Event.QueryMetrics.injEq] at hmem
  rw [hmem.2.2] at hcall
  exact ⟨herr v e hcall, _, htrace⟩

/-- Witness of C15: the remote client refuses the connection. -/
theorem Datasource_Query_remote_failure_witness :
    (Example.unavailableDatasource.Query Example.unmarshal (Context.mk 0)
        Example.twoQueries).outcome
      = Go.returns (none, some (GoError.other "connection refused")) ∧
    ∃ request,
      (Example.unavailableDatasource.Query Example.unmarshal (Context.mk 0)
        Example.twoQueries).trace
        = [Event.QueryMetrics (Context.mk 0) Example.twoQueries.Datasource request] :=
  Datasource_Query_remote_failure Example.unavailableDatasource Example.unmarshal (Context.mk 0)
    Example.twoQueries Slice.nil (GoError.other "connection refused")
    (by
      intro q hq
      simp only [Example.twoQueries, Slice.elems, List.mem_cons, List.mem_singleton,
        List.not_mem_nil, or_false] at hq
      rcases hq with h | h <;> subst h <;> exact ⟨_, _, rfl, rfl⟩)
    ⟨_, List.mem_singleton_self _, rfl⟩

/-- Counterexample to C16: one query that deserializes and converts, and a successful
remote response of two result sets, both well shaped: `Query` panics on `refIds[1]`, the
index being beyond the one reference id, and returns no response.  And three queries that
deserialize and convert in a request without time range, with a remote client that
answers with two well-shaped result sets: `Query` panics on the nil time range and
returns no response. -/
theorem Datasource_Query_more_results_counterexample :
    ((∀ q ∈ Example.oneQuery.Queries.elems, ∃ mr rq,
      Example.unmarshal q.ModelJson = Except.ok mr ∧
      Example.datasource.MetricQueryConverter mr.Query = Go.returns (rq, none)) ∧
    (∀ request, Example.datasource.KairosDBClient (Context.mk 0)
      Example.oneQuery.Datasource request
        = Go.returns (Slice.of [some Example.firstResults, some Example.secondResults], none)) ∧
    (∀ r ∈ [some Example.firstResults, some Example.secondResults],
      ∃ qr, Example.datasource.ParseQueryResult r = Go.returns qr) ∧
    Example.oneQuery.Queries.len = 1 ∧
    (Slice.of [some Example.firstResults, some Example.secondResults]).len = 2 ∧
    (Example.datasource.Query Example.unmarshal (Context.mk 0) Example.oneQuery).outcome
      = Go.panics (RuntimePanic.indexOutOfRange 1 1) ∧
    ¬ ∃ response err,
      (Example.datasource.Query Example.unmarshal (Context.mk 0) Example.oneQuery).outcome
        = Go.returns (response, err)) ∧
    ((∀ q ∈ Example.threeQueriesNoTimeRange.Queries.elems, ∃ mr rq,
      Example.unmarshal q.ModelJson = Except.ok mr ∧
      Example.datasource.MetricQueryConverter mr.Query = Go.returns (rq, none)) ∧
    (∀ request, Example.datasource.KairosDBClient (Context.mk 0)
      Example.threeQueriesNoTimeRange.Datasource request
        = Go.returns (Slice.of [some Example.firstResults, some Example.secondResults], none)) ∧
    Example.threeQueriesNoTimeRange.Queries.len = 3 ∧
    (Example.datasource.Query Example.unmarshal (Context.mk 0)
      Example.threeQueriesNoTimeRange).outcome = Go.panics RuntimePanic.nilDereference ∧
    ¬ ∃ response err,
      (Example.datasource.Query Example.unmarshal (Context.mk 0)
        Example.threeQueriesNoTimeRange).outcome = Go.returns (response, err)) := by
  have h : (Example.datasource.Query Example.unmarshal (Context.mk 0) Example.oneQuery).outcome
      = Go.panics (RuntimePanic.indexOutOfRange 1 1) := rfl
  have h2 : (Example.datasource.Query Example.unmarshal (Context.mk 0)
      Example.threeQueriesNoTimeRange).outcome = Go.panics RuntimePanic.nilDereference := rfl
  refine ⟨⟨?_, fun _ => rfl, ?_, rfl, rfl, h, ?_⟩, ⟨?_, fun _ => rfl, rfl, h2, ?_⟩⟩
  · intro q hq
    simp only [Example.oneQuery, Slice.elems, List.mem_singleton] at hq
    subst hq
    exact ⟨_, _, rfl, rfl⟩
  · intro r hr
    simp only [List.mem_cons, List.mem_singleton, List.not_mem_nil, or_false] at hr
    rcases hr with h | h <;> subst h <;> exact ⟨_, rfl⟩
  · rw [h]
    simp
  · intro q hq
    simp only [Example.threeQueriesNoTimeRange, Slice.elems, List.mem_cons, List.mem_singleton,
      List.not_mem_nil, or_false] at hq
    rcases hq with hq | hq | hq <;> subst hq <;> exact ⟨_, _, rfl, rfl⟩
  · rw [h2]
    simp

/-- C16, amended: for every batch of N queries that all deserialize and convert, and
every successful remote response of M result sets, M less than N, given to the call that
`Query` makes (it makes the call when the time range of the request is non-nil), on each
of which `ParseQueryResult` returns, `Query` returns a response and no error; the response has
exactly M results, result `i` being `ParseQueryResult` of remote result set `i` with
`RefId` set to the reference id of query `i`. -/
theorem Datasource_Query_fewer_results (ds : Datasource) (unmarshal : json.Unmarshal)
    (ctx : Context) (dsRequest : datasource.DatasourceRequest)
    (results : Slice (Option remote.MetricQueryResults))
    (hconv : ∀ q ∈ dsRequest.Queries.elems, ∃ mr rq, unmarshal q.ModelJson = Except.ok mr ∧
      ds.MetricQueryConverter mr.Query = Go.returns (rq, none))
    (hremote : ∃ request,
      Event.QueryMetrics ctx dsRequest.Datasource request ∈ (ds.Query unmarshal ctx dsRequest).trace ∧
      ds.KairosDBClient ctx dsRequest.Datasource request = Go.returns (results, none))
    (hcount : results.len < dsRequest.Queries.len)
    (hparse : ∀ r ∈ results.elems, ∃ qr, ds.ParseQueryResult r = Go.returns qr) :
    ∃ out,
      (ds.Query unmarshal ctx dsRequest).outcome
        = Go.returns (some { Results := Slice.of out }, none) ∧
      out.length = results.len ∧
      ∀ i, i < results.len →
        ∃ q r qr, dsRequest.Queries.elems[i]? = some q ∧ results.elems[i]? = some r ∧
          ds.ParseQueryResult r = Go.returns qr ∧
          out[i]? = some { qr with RefId := q.RefId } := by
  obtain ⟨request, hmem, hcall⟩ := hremote
  obtain ⟨timeRange, htime⟩ :=
    Query_call_timeRange ds unmarshal ctx dsRequest hconv _ _ request hmem
  obtain ⟨rqs, _, htrace, _, _, hok⟩ :=
    Query_all_converted ds unmarshal ctx dsRequest timeRange hconv htime
  rw [htrace, List.mem_singleton, Event.QueryMetrics.injEq] at hmem
  rw [hmem.2.2] at hcall
  have hlen : results.elems.length
      < (dsRequest.Queries.elems.map datasource.Query.RefId).length := by
    simpa [Slice.len] using hcount
  obtain ⟨out, hout, hrun⟩ := attachRefIds_all_ok ds
    (Slice.of (dsRequest.Queries.elems.map datasource.Query.RefId)) results.elems []
    (dsRequest.Queries.elems.map datasource.Query.RefId) (Slice.of []) rfl (le_of_lt hlen) hparse
  rw [Slice.foldl_append_of_nil] at hrun
  have hzip : (results.elems.zip (dsRequest.Queries.elems.map datasource.Query.RefId)).length
      = results.len := by
    rw [List.length_zip, min_eq_left (le_of_lt hlen)]
    rfl
  refine ⟨out, (hok results hcall).2 _ hrun, ?_, fun i hi => ?_⟩
  · rw [← hout.length_eq, hzip]
  · obtain ⟨p, o, hp, ho, qr, hqr, hoeq⟩ := forall₂_getElem? hout i (by rw [hzip]; exact hi)
    obtain ⟨hr, hid⟩ := List.getElem?_zip_eq_some.mp hp
    rw [List.getElem?_map] at hid
    obtain ⟨q, hq, hqid⟩ := Option.map_eq_some'.mp hid
    exact ⟨q, p.1, qr, hq, hr, hqr, by rw [ho, hoeq, hqid]⟩

/-- Witness of C16, amended: three queries and a remote response of two result sets;
the response has the two results under `A` and `B`, and `C` is in none. -/
theorem Datasource_Query_fewer_results_witness :
    (∃ out,
      (Example.datasource.Query Example.unmarshal (Context.mk 0) Example.threeGoodQueries).outcome
        = Go.returns (some { Results := Slice.of out }, none) ∧
      out.length = (Slice.of [some Example.firstResults, some Example.secondResults]).len ∧
      ∀ i, i < (Slice.of [some Example.firstResults, some Example.secondResults]).len →
        ∃ q r qr, Example.threeGoodQueries.Queries.elems[i]? = some q ∧
          (Slice.of [some Example.firstResults, some Example.secondResults]).elems[i]? = some r ∧
          Example.datasource.ParseQueryResult r = Go.returns qr ∧
          out[i]? = some { qr with RefId := q.RefId }) ∧
    (Example.datasource.Query Example.unmarshal (Context.mk 0) Example.threeGoodQueries).outcome
      = Go.returns (some Example.twoQueriesResponse, none) :=
  ⟨Datasource_Query_fewer_results Example.datasource Example.unmarshal (Context.mk 0)
    Example.threeGoodQueries (Slice.of [some Example.firstResults, some Example.secondResults])
    (by
      intro q hq
      simp only [Example.threeGoodQueries, Slice.elems, List.mem_cons, List.mem_singleton,
        List.not_mem_nil, or_false] at hq
      rcases hq with h | h | h <;> subst h <;> exact ⟨_, _, rfl, rfl⟩)
    ⟨_, List.mem_singleton_self _, rfl⟩ (by decide)
    (by
      intro r hr
      simp only [Slice.elems, List.mem_cons, List.mem_singleton, List.not_mem_nil,
        or_false] at hr
      rcases hr with h | h <;> subst h <;> exact ⟨_, rfl⟩),
   rfl⟩

/-! ## Result parser: points -/

/-- Truncation toward zero of a non-negative number is its floor. -/
theorem tdiv_of_nonneg (t : Float64) (h : 0 ≤ t) : Int.tdiv t.num t.den = ⌊t⌋ := by
  rw [Rat.floor_def]
  exact Int.tdiv_eq_ediv (Rat.num_nonneg.mpr h) (Int.ofNat_nonneg _)

/-- Truncation toward zero of a non-positive number is its ceiling. -/
theorem tdiv_of_nonpos (t : Float64) (h : t ≤ 0) : Int.tdiv t.num t.den = ⌈t⌉ := by
  have hneg := tdiv_of_nonneg (-t) (neg_nonneg.mpr h)
  rw [Int.floor_neg, Rat.neg_num, Rat.neg_den, Int.neg_tdiv] at hneg
  exact neg_injective hneg

/-- The result of `int64` is a signed 64-bit integer. -/
theorem int64_range (t : Float64) : math.MinInt64 ≤ int64 t ∧ int64 t ≤ math.MaxInt64 := by
  unfold int64
  simp only
  split
  · assumption
  · exact ⟨le_refl _, by decide⟩

/-- Beyond the range the conversion does not truncate: at 2^63 it gives `math.MinInt64`. -/
theorem int64_beyond_range :
    int64 (9223372036854775808 : Float64) = -9223372036854775808 := by
  rfl

/-- On a non-negative number within the range `int64` is the floor. -/
theorem int64_of_nonneg (t : Float64) (h : 0 ≤ t) (hhi : t ≤ (math.MaxInt64 : Float64)) :
    int64 t = ⌊t⌋ := by
  have hfloor : ⌊t⌋ ≤ math.MaxInt64 := by
    have hle : ((⌊t⌋ : Int) : Float64) ≤ (math.MaxInt64 : Float64) :=
      le_trans (Int.floor_le t) hhi
    exact_mod_cast hle
  have hlow : math.MinInt64 ≤ ⌊t⌋ := le_trans (by decide) (Int.floor_nonneg.mpr h)
  simp only [int64, tdiv_of_nonneg t h, hlow, hfloor, and_self, if_true]

/-- On a non-positive number within the range `int64` is the ceiling. -/
theorem int64_of_nonpos (t : Float64) (h : t ≤ 0) (hlo : (math.MinInt64 : Float64) ≤ t) :
    int64 t = ⌈t⌉ := by
  have hceil : math.MinInt64 ≤ ⌈t⌉ := by
    have hle : (math.MinInt64 : Float64) ≤ ((⌈t⌉ : Int) : Float64) :=
      le_trans hlo (Int.le_ceil t)
    exact_mod_cast hle
  have hhigh : ⌈t⌉ ≤ math.MaxInt64 :=
    le_trans (Int.ceil_le.mpr (by exact_mod_cast h)) (by decide)
  simp only [int64, tdiv_of_nonpos t h, hceil, hhigh, and_self, if_true]

/-- An integer within the range is its own `int64`. -/
theorem int64_intCast (n : Int) (hlo : math.MinInt64 ≤ n) (hhi : n ≤ math.MaxInt64) :
    int64 (n : Float64) = n := by
  simp only [int64, Rat.num_intCast, Rat.den_intCast, Nat.cast_one, Int.tdiv_one, hlo, hhi,
    and_self, if_true]

/-- C12: for every non-nil remote result whose data points all carry at least two
numbers, `ParseQueryResult` returns, and for data point `k` of series `j`, with the numbers
`t` and `v` at elements 0 and 1, point `k` of output series `j` has the value `v` itself
and a signed 64-bit timestamp which, for `t` within the signed 64-bit range, is `t`
truncated toward zero: the floor of a non-negative `t`, the ceiling of a non-positive `t`,
`t` itself when it is integral. -/
theorem Datasource_ParseQueryResult_point (ds : Datasource) (results : remote.MetricQueryResults)
    (hshape : ∀ s ∈ results.Results.elems, ∀ dp ∈ s.Values.elems, 2 ≤ dp.length) :
    ∃ out, ds.ParseQueryResult (some results) = Go.returns { RefId := "", Series := Slice.of out } ∧
      ∀ (j k : Nat) (s : remote.MetricQueryResult) (dp : List Float64),
        results.Results.elems[j]? = some s → s.Values.elems[k]? = some dp →
        ∃ (t v : Float64) (o : datasource.TimeSeries) (point : datasource.Point),
          dp[0]? = some t ∧ dp[1]? = some v ∧ out[j]? = some o ∧
          o.Points.elems[k]? = some point ∧
          point.Value = v ∧
          (math.MinInt64 ≤ point.Timestamp ∧ point.Timestamp ≤ math.MaxInt64) ∧
          ((math.MinInt64 : Float64) ≤ t → t ≤ (math.MaxInt64 : Float64) →
            (0 ≤ t → point.Timestamp = ⌊t⌋) ∧
            (t ≤ 0 → point.Timestamp = ⌈t⌉) ∧
            (∀ n : Int, t = (n : Float64) → point.Timestamp = n)) := by
  obtain ⟨out, hout, hrun⟩ := parseSeries_all_ok results.Results.elems (Slice.of []) hshape
  rw [Slice.foldl_append_of_nil] at hrun
  refine ⟨out, by simp only [Datasource.ParseQueryResult, hrun], fun j k s dp hs hdp => ?_⟩
  obtain ⟨hj, _⟩ := List.getElem?_eq_some.mp hs
  obtain ⟨s2, o, hs2, ho, _, _, hpoints⟩ := forall₂_getElem? hout j hj
  rw [hs] at hs2
  rw [Option.some.injEq] at hs2
  subst hs2
  obtain ⟨hk, _⟩ := List.getElem?_eq_some.mp hdp
  obtain ⟨dp2, point, hdp2, hpoint, t, v, ht, hv, hpt⟩ := forall₂_getElem? hpoints k hk
  rw [hdp] at hdp2
  rw [Option.some.injEq] at hdp2
  subst hdp2
  refine ⟨t, v, o, point, ht, hv, ho, hpoint, ?_, ?_, fun hlo hhi => ⟨?_, ?_, ?_⟩⟩
  · rw [hpt]
  · rw [hpt]
    exact int64_range t
  · intro h
    rw [hpt]
    exact int64_of_nonneg t h hhi
  · intro h
    rw [hpt]
    exact int64_of_nonpos t h hlo
  · intro n hn
    rw [hpt]
    subst hn
    exact int64_intCast n (by exact_mod_cast hlo) (by exact_mod_cast hhi)

/-- Witness of C12: the data point `[1500.9, 1.5]` becomes the point of timestamp 1500 and
value 1.5, the data point `[-1500.9, 2]` the point of timestamp -1500, and the data
point `[1500, 7]` the point of timestamp 1500. -/
theorem Datasource_ParseQueryResult_point_witness :
    ∃ out, Example.datasource.ParseQueryResult (some Example.fractionalResults)
        = Go.returns { RefId := "", Series := Slice.of out } ∧
      ∃ o p0 p1 p2, out[0]? = some o ∧
        o.Points.elems[0]? = some p0 ∧ p0.Timestamp = 1500 ∧ p0.Value = 3 / 2 ∧
        o.Points.elems[1]? = some p1 ∧ p1.Timestamp = -1500 ∧ p1.Value = 2 ∧
        o.Points.elems[2]? = some p2 ∧ p2.Timestamp = 1500 ∧ p2.Value = 7 := by
  obtain ⟨out, hret, hpoints⟩ :=
    Datasource_ParseQueryResult_point Example.datasource Example.fractionalResults (by
      intro s hs dp hdp
      simp only [Example.fractionalResults, Slice.elems, List.mem_singleton] at hs
      subst hs
      simp only [Slice.elems, List.mem_cons, List.mem_singleton, List.not_mem_nil,
        or_false] at hdp
      rcases hdp with h | h | h <;> subst h <;> decide)
  refine ⟨out, hret, ?_⟩
  obtain ⟨t0, v0, o, p0, ht0, hv0, ho, hp0, hval0, _, htrunc0⟩ :=
    hpoints 0 0 _ [15009 / 10, 3 / 2] rfl rfl
  obtain ⟨t1, v1, o1, p1, ht1, hv1, ho1, hp1, hval1, _, htrunc1⟩ :=
    hpoints 0 1 _ [-15009 / 10, 2] rfl rfl
  obtain ⟨t2, v2, o2, p2, ht2, hv2, ho2, hp2, hval2, _, htrunc2⟩ :=
    hpoints 0 2 _ [1500, 7] rfl rfl
  rw [ho] at ho1 ho2
  rw [Option.some.injEq] at ho1 ho2
  subst ho1 ho2
  simp only [List.getElem?_cons_zero, List.getElem?_cons_succ,
    Option.some.injEq] at ht0 hv0 ht1 hv1 ht2 hv2
  subst ht0 hv0 ht1 hv1 ht2 hv2
  refine ⟨o, p0, p1, p2, ho, hp0, ?_, hval0, hp1, ?_, hval1, hp2, ?_, hval2⟩
  · rw [(htrunc0 (by norm_num [math.MinInt64]) (by norm_num [math.MaxInt64])).1 (by norm_num),
      Int.floor_eq_iff]
    norm_num
  · rw [(htrunc1 (by norm_num [math.MinInt64]) (by norm_num [math.MaxInt64])).2.1
      (by norm_num), Int.ceil_eq_iff]
    norm_num
  · exact (htrunc2 (by norm_num [math.MinInt64]) (by norm_num [math.MaxInt64])).2.2 1500
      (by norm_num)

/-! ## Result parser: totality and index failures -/

/-- Data points that agree on their first two elements are parsed alike. -/
theorem parsePoints_take (dataPoints others : List (List Float64))
    (series : datasource.TimeSeries)
    (h : List.Forall₂ (fun d1 d2 : List Float64 => d1.take 2 = d2.take 2) dataPoints others) :
    Datasource.parsePoints dataPoints series = Datasource.parsePoints others series := by
  induction h generalizing series with
  | nil => rfl
  | @cons d1 d2 rest1 rest2 hd _ ih =>
    match d1, d2, hd with
    | [], [], _ => rfl
    | [], _ :: _, hd => simp at hd
    | [a], [], hd => simp at hd
    | [a], [b], hd =>
      simp only [List.take, List.cons.injEq, and_true] at hd
      subst hd
      rfl
    | [a], _ :: _ :: _, hd => simp at hd
    | _ :: _ :: _, [], hd => simp at hd
    | _ :: _ :: _, [b], hd => simp at hd
    | a :: b :: more1, c :: d :: more2, hd =>
      simp only [List.take, List.cons.injEq, and_true] at hd
      obtain ⟨hac, hbd⟩ := hd
      subst hac hbd
      simp only [Datasource.parsePoints, List.getElem?_cons_zero, List.getElem?_cons_succ]
      exact ih _

/-- Series that agree on name, tag group and the first two elements of their data points
are parsed alike. -/
theorem parseSeries_take (remoteSeries others : List remote.MetricQueryResult)
    (seriesSet : Slice datasource.TimeSeries)
    (h : List.Forall₂ (fun s1 s2 : remote.MetricQueryResult =>
      s1.Name = s2.Name ∧ s1.GetTaggedGroup = s2.GetTaggedGroup ∧
      List.Forall₂ (fun d1 d2 : List Float64 => d1.take 2 = d2.take 2)
        s1.Values.elems s2.Values.elems) remoteSeries others) :
    Datasource.parseSeries remoteSeries seriesSet = Datasource.parseSeries others seriesSet := by
  induction h generalizing seriesSet with
  | nil => rfl
  | @cons s1 s2 rest1 rest2 hs _ ih =>
    obtain ⟨hname, htags, hvalues⟩ := hs
    simp only [Datasource.parseSeries, hname, htags, parsePoints_take _ _ _ hvalues]
    split
    · rfl
    · exact ih _

/-- A data point with fewer than two numbers makes the point loop panic on index 1. -/
theorem parsePoints_short (dataPoints : List (List Float64)) (series : datasource.TimeSeries)
    (h : ∃ dp ∈ dataPoints, dp.length < 2) :
    ∃ n, n < 2 ∧
      Datasource.parsePoints dataPoints series = Go.panics (RuntimePanic.indexOutOfRange 1 n) := by
  induction dataPoints generalizing series with
  | nil =>
    obtain ⟨dp, hdp, _⟩ := h
    simp at hdp
  | cons d rest ih =>
    match d, h with
    | [], _ => exact ⟨0, by decide, rfl⟩
    | [a], _ => exact ⟨1, by decide, rfl⟩
    | a :: b :: more, h =>
      obtain ⟨dp, hdp, hlen⟩ := h
      rcases List.mem_cons.mp hdp with hhead | htail
      · subst hhead
        simp only [List.length_cons] at hlen
        omega
      · simp only [Datasource.parsePoints, List.getElem?_cons_zero, List.getElem?_cons_succ]
        exact ih _ ⟨dp, htail, hlen⟩

/-- A series with a data point of fewer than two numbers makes the series loop panic on
index 1. -/
theorem parseSeries_short (remoteSeries : List remote.MetricQueryResult)
    (seriesSet : Slice datasource.TimeSeries)
    (h : ∃ s ∈ remoteSeries, ∃ dp ∈ s.Values.elems, dp.length < 2) :
    ∃ n, n < 2 ∧
      Datasource.parseSeries remoteSeries seriesSet
        = Go.panics (RuntimePanic.indexOutOfRange 1 n) := by
  induction remoteSeries generalizing seriesSet with
  | nil =>
    obtain ⟨s, hs, _⟩ := h
    simp at hs
  | cons s rest ih =>
    by_cases hshort : ∃ dp ∈ s.Values.elems, dp.length < 2
    · obtain ⟨n, hn, hrun⟩ := parsePoints_short s.Values.elems
        { Name := s.Name, Tags := s.GetTaggedGroup, Points := Slice.nil } hshort
      exact ⟨n, hn, by simp only [Datasource.parseSeries, hrun]⟩
    · have hgood : ∀ dp ∈ s.Values.elems, 2 ≤ dp.length := by
        intro dp hdp
        by_contra hlt
        exact hshort ⟨dp, hdp, by omega⟩
      obtain ⟨points, _, hrun⟩ := parsePoints_all_ok s.Values.elems
        { Name := s.Name, Tags := s.GetTaggedGroup, Points := Slice.nil } hgood
      obtain ⟨s2, hs2, hrest⟩ := h
      rcases List.mem_cons.mp hs2 with hhead | htail
      · subst hhead
        exact absurd hrest hshort
      · obtain ⟨n, hn, hloop⟩ := ih (seriesSet.append
          { Name := s.Name, Tags := s.GetTaggedGroup,
            Points := points.foldl Slice.append Slice.nil }) ⟨s2, htail, hrest⟩
        exact ⟨n, hn, by simp only [Datasource.parseSeries, hrun, hloop]⟩

/-- C19: for every non-nil remote result, `ParseQueryResult` returns when all data points
carry at least two numbers; it reads elements 0 and 1 of a data point and nothing
further, a remote result that agrees on names, tag groups and the first two elements of
its data points being parsed to the same outcome; and when a data point carries fewer
than two numbers it panics on index 1, the point being neither skipped nor defaulted. -/
theorem Datasource_ParseQueryResult_total (ds : Datasource) (results : remote.MetricQueryResults) :
    ((∀ s ∈ results.Results.elems, ∀ dp ∈ s.Values.elems, 2 ≤ dp.length) →
      ∃ out, ds.ParseQueryResult (some results) = Go.returns out) ∧
    (∀ other : remote.MetricQueryResults,
      List.Forall₂ (fun s1 s2 : remote.MetricQueryResult =>
        s1.Name = s2.Name ∧ s1.GetTaggedGroup = s2.GetTaggedGroup ∧
        List.Forall₂ (fun d1 d2 : List Float64 => d1.take 2 = d2.take 2)
          s1.Values.elems s2.Values.elems) results.Results.elems other.Results.elems →
      ds.ParseQueryResult (some other) = ds.ParseQueryResult (some results)) ∧
    ((∃ s ∈ results.Results.elems, ∃ dp ∈ s.Values.elems, dp.length < 2) →
      ∃ n, n < 2 ∧
        ds.ParseQueryResult (some results) = Go.panics (RuntimePanic.indexOutOfRange 1 n)) := by
  refine ⟨fun hshape => ?_, fun other hother => ?_, fun hshort => ?_⟩
  · obtain ⟨out, _, hrun⟩ := parseSeries_all_ok results.Results.elems (Slice.of []) hshape
    exact ⟨datasource.QueryResult.mk "" (out.foldl Slice.append (Slice.of [])),
      by simp only [Datasource.ParseQueryResult, hrun]⟩
  · simp only [Datasource.ParseQueryResult, parseSeries_take _ _ (Slice.of []) hother]
  · obtain ⟨n, hn, hrun⟩ := parseSeries_short results.Results.elems (Slice.of []) hshort
    exact ⟨n, hn, by simp only [Datasource.ParseQueryResult, hrun]⟩

/-- Witness of C19: the result set `first` is parsed; with further numbers in its data
points it is parsed to the same result; the result set with a one-number data point
panics. -/
theorem Datasource_ParseQueryResult_total_witness :
    (∃ out, Example.datasource.ParseQueryResult (some Example.firstResults) = Go.returns out) ∧
    Example.datasource.ParseQueryResult (some Example.longPointResults)
      = Example.datasource.ParseQueryResult (some Example.firstResults) ∧
    (∃ n, n < 2 ∧
      Example.datasource.ParseQueryResult (some Example.shortPointResults)
        = Go.panics (RuntimePanic.indexOutOfRange 1 n)) :=
  ⟨(Datasource_ParseQueryResult_total Example.datasource Example.firstResults).1 (by
      intro s hs dp hdp
      simp only [Example.firstResults, Slice.elems, List.mem_singleton] at hs
      subst hs
      simp only [Slice.elems, List.mem_cons, List.mem_singleton, List.not_mem_nil,
        or_false] at hdp
      rcases hdp with h | h <;> subst h <;> decide),
   (Datasource_ParseQueryResult_total Example.datasource Example.firstResults).2.1
      Example.longPointResults
      (List.Forall₂.cons
        ⟨rfl, rfl, List.Forall₂.cons rfl (List.Forall₂.cons rfl List.Forall₂.nil)⟩
        List.Forall₂.nil),
   (Datasource_ParseQueryResult_total Example.datasource Example.shortPointResults).2.2
      ⟨_, List.mem_singleton_self _, [1000], List.mem_singleton_self _, by decide⟩⟩

end KairosDB
